import Mathlib

/-!
Verification development for the MCAP recording subsystem of DDS-Record-Replay.

The definitions below are a shallow embedding of
`src/ddsrecorder_participants/src/cpp/recorder/mcap/McapWriter.cpp` and of the
`McapHandler` interface declared in
`src/ddsrecorder_participants/include/ddsrecorder_participants/recorder/mcap/McapHandler.hpp`.
Components of the repository whose sources are not available (the `SizeTracker`,
the `FileTracker`, the mcap codec, the public `McapWriter::write` wrapper and the
`McapHandler` implementation) are modelled from the specification; each such
definition carries a doc comment starting with `Modelled from the spec:`.

Sizes are natural numbers of bytes.  Exceptions are modelled by `Option`-valued
error components: every operation returns the error raised (if any), the state
of the object after the operation (C++ objects keep their mutations when an
exception escapes), and a trace of instrumentation events.
-/

namespace DdsRecorder

/-- Modelled from the spec: fixed baseline accounting for MCAP framing overhead
(magic, header, summary, footer), part of the missing `SizeTracker` sources. -/
def MCAP_BASE : Nat := 8

/-- Modelled from the spec: serialized size of the `version` metadata record that
`McapWriter::write_metadata_nts_` emits on every new file. -/
def METADATA_SIZE : Nat := 4

/-- Minimum viable MCAP size used by `McapWriter::enable` for the first file:
framing baseline plus the version metadata record. -/
def MIN_MCAP_SIZE : Nat := MCAP_BASE + METADATA_SIZE

/-- The `OutputSettings` fields used by `McapWriter`. -/
structure OutputSettings where
  max_file_size : Nat
  max_size : Nat
  safety_margin : Nat
deriving Repr, DecidableEq

/-- `FullFileException`: raised by the `SizeTracker` on reservation overflow;
carries `data_size_to_write`, the size of the item that did not fit. -/
structure FullFileE where
  data_size_to_write : Nat
deriving Repr, DecidableEq

/-- A serialized dynamic-types payload (`SerializedPayload_t`): an identity tag
to distinguish payload instances, and its length in bytes. -/
structure Payload where
  ident : Nat
  length : Nat
deriving Repr, DecidableEq

/-- An mcap schema: its stable id and serialized record size. -/
structure Schema where
  id : Nat
  size : Nat
deriving Repr, DecidableEq

/-- An mcap channel: its stable id and serialized record size. -/
structure Channel where
  id : Nat
  size : Nat
deriving Repr, DecidableEq

/-- A message to be recorded (`McapMessage`): its payload size. -/
structure McapMessage where
  dataSize : Nat
deriving Repr, DecidableEq

/-- An mcap metadata record: its serialized size. -/
structure MetadataItem where
  size : Nat
deriving Repr, DecidableEq

/-- A record written into an MCAP file by the codec. -/
inductive Record where
  | metadataRec (size : Nat)
  | schemaRec (s : Schema)
  | channelRec (c : Channel)
  | messageRec (dataSize : Nat)
  | attachmentRec (p : Payload)
deriving Repr, DecidableEq

/-- Whether a record is a dynamic-types attachment record. -/
def Record.isAttachment : Record → Bool
  | .attachmentRec _ => true
  | _ => false

/-- Errors escaping `McapWriter` internals: `FullFileException` (reservation
overflow) and `FullDiskException` (disk budget exhausted). -/
inductive WErr where
  | fullFile (e : FullFileE)
  | fullDisk
deriving Repr, DecidableEq

/-- Instrumentation events recording the interaction of the writer with the
`SizeTracker`, the codec and the `on_disk_full_` callback. -/
inductive Ev where
  | reserveEv (n : Nat)
  | reserveFailEv (n : Nat)
  | codecEv (ok : Bool)
  | commitEv (n : Nat)
  | attachReserveEv (ok : Bool)
  | rolloverEv
  | diskFullEv
deriving Repr, DecidableEq

/-- Modelled from the spec: the `SizeTracker` state (sources not under `src/`).
It tracks committed (`written`) and reserved-but-unwritten (`reserved`) bytes
against a per-file ceiling `max_file_size` with a `safety_margin` tail, and the
length of the pending dynamic-types attachment. -/
structure SizeTracker where
  max_file_size : Nat := 0
  safety_margin : Nat := 0
  written : Nat := 0
  reserved : Nat := 0
  attachment_pending : Nat := 0
deriving Repr, DecidableEq

namespace SizeTracker

/-- Modelled from the spec: `SizeTracker::init(max_file_size, safety_margin)`;
begins accounting, the baseline `MCAP_BASE` accounts for MCAP framing overhead. -/
def init (max_file margin : Nat) : SizeTracker :=
  { max_file_size := max_file, safety_margin := margin,
    written := MCAP_BASE, reserved := 0, attachment_pending := 0 }

/-- `SizeTracker::get_potential_mcap_size`: committed plus reserved bytes. -/
def get_potential_mcap_size (st : SizeTracker) : Nat := st.written + st.reserved

/-- `SizeTracker::get_written_mcap_size`: committed bytes only. -/
def get_written_mcap_size (st : SizeTracker) : Nat := st.written

/-- Modelled from the spec: `SizeTracker::get_min_mcap_size` — minimum viable
size for an empty-but-closeable file: base, metadata, pending attachment. -/
def get_min_mcap_size (st : SizeTracker) : Nat :=
  MCAP_BASE + METADATA_SIZE + st.attachment_pending

/-- Modelled from the spec: the `*_to_write` reservation step shared by
`schema_to_write`, `channel_to_write`, `message_to_write`, `metadata_to_write`:
raise `FullFileException` with `data_size_to_write = n` if the write would
exceed `max_file_size - safety_margin`. -/
def reserve (st : SizeTracker) (n : Nat) : Except FullFileE SizeTracker :=
  if st.max_file_size < st.written + st.reserved + n + st.safety_margin
  then .error ⟨n⟩
  else .ok { st with reserved := st.reserved + n }

/-- Modelled from the spec: the `*_written` commit step shared by the
`*_written` methods — convert a reservation to committed bytes. -/
def commit (st : SizeTracker) (n : Nat) : SizeTracker :=
  { st with written := st.written + n, reserved := st.reserved - n }

/-- Modelled from the spec: `SizeTracker::attachment_to_write(new_len, old_len)`
— reserve the delta between the new and the previously staged attachment
lengths (the one-argument overload is `old_len = 0`). -/
def attachment_to_write (st : SizeTracker) (new_len old_len : Nat) :
    Except FullFileE SizeTracker :=
  if st.max_file_size < st.written + (st.reserved - old_len + new_len) + st.safety_margin
  then .error ⟨new_len⟩
  else .ok { st with reserved := st.reserved - old_len + new_len,
                     attachment_pending := new_len }

/-- Modelled from the spec: `SizeTracker::reset(filename)` — prepare for the
next file; the pending-attachment length survives because the staged payload
still has to fit in the next file. -/
def reset (st : SizeTracker) : SizeTracker :=
  { st with written := 0, reserved := 0 }

end SizeTracker

/-- Modelled from the spec: the external `FileTracker` — provides files and
tracks cumulative written bytes against the disk ceiling. -/
structure FileTracker where
  max_file_size : Nat
  max_size : Nat
  closed_sizes : List Nat
  current_size : Nat
  is_open : Bool
deriving Repr, DecidableEq

namespace FileTracker

/-- `FileTracker::get_total_size`: cumulative size of the files closed so far. -/
def get_total_size (ft : FileTracker) : Nat := ft.closed_sizes.sum

/-- Modelled from the spec: `FileTracker::new_file(min_size)` — raises when
`min_size` exceeds the per-file ceiling or the remaining disk budget. -/
def new_file (ft : FileTracker) (min_size : Nat) : Except Unit FileTracker :=
  if min_size ≤ min ft.max_file_size (ft.max_size - ft.get_total_size)
  then .ok { ft with is_open := true, current_size := 0 }
  else .error ()

/-- `FileTracker::set_current_file_size(n)`; no effect without an open file. -/
def set_current_file_size (ft : FileTracker) (n : Nat) : FileTracker :=
  if ft.is_open then { ft with current_size := n } else ft

/-- `FileTracker::close_file`: records the current file's size as final. -/
def close_file (ft : FileTracker) : FileTracker :=
  if ft.is_open then
    { ft with closed_sizes := ft.closed_sizes ++ [ft.current_size],
              current_size := 0, is_open := false }
  else ft

end FileTracker

/-- Modelled from the spec: the external append-only mcap codec (`writer_`).
`files` holds the record lists of the closed files, `current` the records of
the file being written. -/
structure Codec where
  files : List (List Record)
  current : List Record
  is_open : Bool
deriving Repr, DecidableEq

namespace Codec

/-- Codec `open`: begin a fresh file. -/
def open_file (c : Codec) : Codec := { c with is_open := true, current := [] }

/-- Codec `close`: finish the current file. -/
def close_file (c : Codec) : Codec :=
  if c.is_open then
    { c with files := c.files ++ [c.current], current := [], is_open := false }
  else c

/-- Codec `addSchema` / `addChannel`: append a record, no status returned. -/
def add_record (c : Codec) (r : Record) : Codec :=
  if c.is_open then { c with current := c.current ++ [r] } else c

end Codec

/-- Insert an item into an id-ordered association list, replacing an existing
entry with the same key (the behaviour of `std::map::operator[]`). -/
def insertByKey {α : Type} (key : α → Nat) : List α → α → List α
  | [], a => [a]
  | x :: xs, a =>
    if key a < key x then a :: x :: xs
    else if key a = key x then a :: xs
    else x :: insertByKey key xs a

/-- The `McapWriter` state: configuration, enabled flag, size tracker, file
tracker, cached schemas and channels (id-ordered, mirroring the `std::map`s),
the staged dynamic-types payload, a counter of `on_disk_full_` invocations, the
codec, and an oracle that decides the outcome of fallible codec writes (`true`
means the codec reports success; an exhausted oracle means success). -/
structure Writer where
  configuration : OutputSettings
  record_types : Bool
  enabled : Bool
  size_tracker : SizeTracker
  file_tracker : FileTracker
  schemas : List Schema
  channels : List Channel
  dynamic_types_payload : Option Payload
  disk_full_calls : Nat
  codec : Codec
  oracle : List Bool
deriving Repr, DecidableEq

/-- A freshly constructed `McapWriter` (constructor, lines 41-51). -/
def Writer.mk0 (cfg : OutputSettings) (rt : Bool) (oracle : List Bool) : Writer :=
  { configuration := cfg, record_types := rt, enabled := false,
    size_tracker := {},
    file_tracker := { max_file_size := cfg.max_file_size, max_size := cfg.max_size,
                      closed_sizes := [], current_size := 0, is_open := false },
    schemas := [], channels := [], dynamic_types_payload := none,
    disk_full_calls := 0,
    codec := { files := [], current := [], is_open := false },
    oracle := oracle }

namespace Writer

/-- One fallible codec write (`writer_.write(...)` returning a `Status`): pops
the oracle; fails without consuming the oracle when the codec is not open. -/
def codec_write (w : Writer) (r : Record) : Writer × Bool :=
  if w.codec.is_open then
    let ok := w.oracle.headD true
    let w1 := { w with oracle := w.oracle.tail }
    if ok then ({ w1 with codec := w1.codec.add_record r }, true) else (w1, false)
  else (w, false)

/-- `McapWriter::write_nts_<McapMessage>` (McapWriter.cpp lines 263-288):
refuse when disabled; reserve, hand to the codec, commit only on codec
success. -/
def write_message_nts (w : Writer) (msg : McapMessage) :
    Option FullFileE × Writer × List Ev :=
  if ¬ w.enabled then (none, w, [])
  else
    match w.size_tracker.reserve msg.dataSize with
    | .error e => (some e, w, [.reserveFailEv msg.dataSize])
    | .ok st =>
      let w1 := { w with size_tracker := st }
      match w1.codec_write (.messageRec msg.dataSize) with
      | (w2, false) => (none, w2, [.reserveEv msg.dataSize, .codecEv false])
      | (w2, true) =>
        let st2 := w2.size_tracker.commit msg.dataSize
        (none,
         { w2 with size_tracker := st2,
                   file_tracker :=
                     (w2.file_tracker.set_current_file_size st2.get_potential_mcap_size) },
         [.reserveEv msg.dataSize, .codecEv true, .commitEv msg.dataSize])

/-- `McapWriter::write_nts_<mcap::Metadata>` (lines 290-309). -/
def write_metadata_item_nts (w : Writer) (md : MetadataItem) :
    Option FullFileE × Writer × List Ev :=
  match w.size_tracker.reserve md.size with
  | .error e => (some e, w, [.reserveFailEv md.size])
  | .ok st =>
    let w1 := { w with size_tracker := st }
    match w1.codec_write (.metadataRec md.size) with
    | (w2, false) => (none, w2, [.reserveEv md.size, .codecEv false])
    | (w2, true) =>
      let st2 := w2.size_tracker.commit md.size
      (none,
       { w2 with size_tracker := st2,
                 file_tracker :=
                   (w2.file_tracker.set_current_file_size st2.get_potential_mcap_size) },
       [.reserveEv md.size, .codecEv true, .commitEv md.size])

/-- `McapWriter::write_nts_<mcap::Attachment>` (lines 220-240): no reservation
is made here — the bytes were reserved when the dynamic types were staged; on
codec success the reservation is converted to committed bytes. -/
def write_attachment_item_nts (w : Writer) (p : Payload) : Writer × List Ev :=
  match w.codec_write (.attachmentRec p) with
  | (w2, false) => (w2, [.codecEv false])
  | (w2, true) =>
    let st2 := w2.size_tracker.commit p.length
    ({ w2 with size_tracker := st2,
               file_tracker :=
                 (w2.file_tracker.set_current_file_size st2.get_potential_mcap_size) },
     [.codecEv true, .commitEv p.length])

/-- `McapWriter::write_nts_<mcap::Channel>` (lines 242-261): reserve,
`addChannel` (no status), commit, cache the channel for future files. -/
def write_channel_nts (w : Writer) (c : Channel) :
    Option FullFileE × Writer × List Ev :=
  match w.size_tracker.reserve c.size with
  | .error e => (some e, w, [.reserveFailEv c.size])
  | .ok st =>
    let w1 := { w with size_tracker := st,
                       codec := w.codec.add_record (.channelRec c) }
    let st2 := w1.size_tracker.commit c.size
    (none,
     { w1 with size_tracker := st2,
               file_tracker :=
                 (w1.file_tracker.set_current_file_size st2.get_potential_mcap_size),
               channels := insertByKey Channel.id w1.channels c },
     [.reserveEv c.size, .commitEv c.size])

/-- `McapWriter::write_nts_<mcap::Schema>` (lines 311-326): reserve,
`addSchema` (no status), commit, cache the schema for future files. -/
def write_schema_nts (w : Writer) (s : Schema) :
    Option FullFileE × Writer × List Ev :=
  match w.size_tracker.reserve s.size with
  | .error e => (some e, w, [.reserveFailEv s.size])
  | .ok st =>
    let w1 := { w with size_tracker := st,
                       codec := w.codec.add_record (.schemaRec s) }
    let st2 := w1.size_tracker.commit s.size
    (none,
     { w1 with size_tracker := st2,
               file_tracker :=
                 (w1.file_tracker.set_current_file_size st2.get_potential_mcap_size),
               schemas := insertByKey Schema.id w1.schemas s },
     [.reserveEv s.size, .commitEv s.size])

/-- `McapWriter::write_attachment_nts_` (lines 328-341): write the staged
dynamic-types payload as the `dynamic_types` attachment. -/
def write_attachment_nts (w : Writer) : Writer × List Ev :=
  match w.dynamic_types_payload with
  | some p => w.write_attachment_item_nts p
  | none => (w, [])

/-- The loop body of `McapWriter::write_schemas_nts_` (lines 372-387): write
every schema of a snapshot of the cache, stopping at the first exception. -/
def write_schema_list_nts (w : Writer) : List Schema →
    Option FullFileE × Writer × List Ev
  | [] => (none, w, [])
  | s :: rest =>
    match w.write_schema_nts s with
    | (some e, w1, t) => (some e, w1, t)
    | (none, w1, t) =>
      match w1.write_schema_list_nts rest with
      | (r, w2, t2) => (r, w2, t ++ t2)

/-- The loop body of `McapWriter::write_channels_nts_` (lines 343-358). -/
def write_channel_list_nts (w : Writer) : List Channel →
    Option FullFileE × Writer × List Ev
  | [] => (none, w, [])
  | c :: rest =>
    match w.write_channel_nts c with
    | (some e, w1, t) => (some e, w1, t)
    | (none, w1, t) =>
      match w1.write_channel_list_nts rest with
      | (r, w2, t2) => (r, w2, t ++ t2)

/-- `McapWriter::open_new_file_nts_` (lines 159-203): ask the `FileTracker` for
a new file (a failure becomes `FullDiskException`), open the codec, initialize
the `SizeTracker` ceiling to the minimum of `max_file_size` and the remaining
disk budget, re-emit the version metadata, the cached schemas and channels, and
re-reserve the staged dynamic-types attachment. -/
def open_new_file_nts (w : Writer) (min_file_size : Nat) :
    Option WErr × Writer × List Ev :=
  match w.file_tracker.new_file min_file_size with
  | .error _ => (some .fullDisk, w, [])
  | .ok ft1 =>
    let w1 := { w with file_tracker := ft1, codec := w.codec.open_file }
    let max_file := min w1.configuration.max_file_size
        (w1.configuration.max_size - ft1.get_total_size)
    let w2 := { w1 with size_tracker :=
                  (SizeTracker.init max_file w1.configuration.safety_margin) }
    match w2.write_metadata_item_nts ⟨METADATA_SIZE⟩ with
    | (some e, w3, t) => (some (.fullFile e), w3, t)
    | (none, w3, t) =>
      match w3.write_schema_list_nts w3.schemas with
      | (some e, w4, t2) => (some (.fullFile e), w4, t ++ t2)
      | (none, w4, t2) =>
        match w4.write_channel_list_nts w4.channels with
        | (some e, w5, t3) => (some (.fullFile e), w5, t ++ t2 ++ t3)
        | (none, w5, t3) =>
          match w5.dynamic_types_payload, w5.record_types with
          | some p, true =>
            match w5.size_tracker.attachment_to_write p.length 0 with
            | .error e =>
              (some (.fullFile e), w5, t ++ t2 ++ t3 ++ [.reserveFailEv p.length])
            | .ok st =>
              let w6 := { w5 with size_tracker := st }
              (none,
               { w6 with file_tracker :=
                   (w6.file_tracker.set_current_file_size st.get_potential_mcap_size) },
               t ++ t2 ++ t3 ++ [.reserveEv p.length])
          | _, _ =>
            (none,
             { w5 with file_tracker :=
                 (w5.file_tracker.set_current_file_size
                   w5.size_tracker.get_potential_mcap_size) },
             t ++ t2 ++ t3)

/-- `McapWriter::close_current_file_nts_` (lines 205-218): stage the
dynamic-types attachment when recording types and a payload is staged, record
the committed written size as the file's final size, reset the tracker, close
the codec and the tracker's file. -/
def close_current_file_nts (w : Writer) : Writer × List Ev :=
  let (w1, t1) :=
    match w.record_types, w.dynamic_types_payload with
    | true, some _ => w.write_attachment_nts
    | _, _ => (w, [])
  let ft1 := w1.file_tracker.set_current_file_size
      w1.size_tracker.get_written_mcap_size
  (({ w1 with file_tracker := ft1.close_file,
              size_tracker := w1.size_tracker.reset,
              codec := w1.codec.close_file }), t1)

/-- `McapWriter::on_mcap_full_nts_` (lines 389-410): close the current file,
disable the writer, escalate to `FullDiskException` when a single configured
file equals the disk budget, otherwise open a new file large enough for the
minimum MCAP size plus the triggering item, and re-enable the writer. -/
def on_mcap_full_nts (w : Writer) (e : FullFileE) :
    Option WErr × Writer × List Ev :=
  let (w1, t1) := w.close_current_file_nts
  let w2 := { w1 with enabled := false }
  if w2.configuration.max_file_size = w2.configuration.max_size then
    (some .fullDisk, w2, .rolloverEv :: t1)
  else
    let min_fs := w2.size_tracker.get_min_mcap_size + e.data_size_to_write
    match w2.open_new_file_nts min_fs with
    | (some err, w3, t2) => (some err, w3, .rolloverEv :: (t1 ++ t2))
    | (none, w3, t2) => (none, { w3 with enabled := true }, .rolloverEv :: (t1 ++ t2))

/-- `McapWriter::enable` (lines 58-82): idempotent when enabled; otherwise open
the first file; a `FullDiskException` is caught and reported through
`on_disk_full_`, after which the writer still marks itself enabled (line 81 is
outside the catch). -/
def enable (w : Writer) : Option WErr × Writer × List Ev :=
  if w.enabled then (none, w, [])
  else
    match w.open_new_file_nts MIN_MCAP_SIZE with
    | (some .fullDisk, w1, t) =>
      (none, { w1 with disk_full_calls := w1.disk_full_calls + 1, enabled := true },
       t ++ [.diskFullEv])
    | (some (.fullFile e), w1, t) => (some (.fullFile e), w1, t)
    | (none, w1, t) => (none, { w1 with enabled := true }, t)

/-- `McapWriter::disable` (lines 84-102): idempotent when disabled; otherwise
close the current file and clear the cached channels (the schemas are kept). -/
def disable (w : Writer) : Writer × List Ev :=
  if ¬ w.enabled then (w, [])
  else
    let (w1, t) := w.close_current_file_nts
    ({ w1 with channels := [], enabled := false }, t)

/-- The staged payload's length, `0` when nothing is staged (the two branches
of the `update_dynamic_types_payload` lambda, lines 109-128). -/
def staged_length (w : Writer) : Nat :=
  match w.dynamic_types_payload with
  | some q => q.length
  | none => 0

/-- The reservation step of `McapWriter::update_dynamic_types`: reserve the
delta between the new and the previously staged payload lengths. -/
def update_reserve_step (w : Writer) (p : Payload) :
    Option FullFileE × Writer × List Ev :=
  match w.size_tracker.attachment_to_write p.length w.staged_length with
  | .error e => (some e, w, [.attachReserveEv false])
  | .ok st => (none, { w with size_tracker := st }, [.attachReserveEv true])

/-- The unconditional tail of `McapWriter::update_dynamic_types` (lines
149-150): point the staged payload at the argument and push the potential MCAP
size to the `FileTracker`. -/
def update_finish_step (w : Writer) (p : Payload) : Writer :=
  { w with dynamic_types_payload := some p,
           file_tracker := (w.file_tracker.set_current_file_size
             w.size_tracker.get_potential_mcap_size) }

/-- `McapWriter::update_dynamic_types` (lines 104-151): reserve the delta; on
`FullFileException` roll the file over and retry once; a `FullDiskException`
from the rollover is caught and reported through `on_disk_full_`; lines 149-150
run whenever no exception escapes.  A `FullFileException` raised by the rollover
itself or by the retry escapes to the caller (the inner `catch` only handles
`FullDiskException`), skipping lines 149-150. -/
def update_dynamic_types (w : Writer) (p : Payload) :
    Option WErr × Writer × List Ev :=
  match w.update_reserve_step p with
  | (none, w1, t1) => (none, w1.update_finish_step p, t1)
  | (some e, w1, t1) =>
    match w1.on_mcap_full_nts e with
    | (some .fullDisk, w2, t2) =>
      (none,
       Writer.update_finish_step
         { w2 with disk_full_calls := w2.disk_full_calls + 1 } p,
       t1 ++ t2 ++ [.diskFullEv])
    | (some (.fullFile e2), w2, t2) => (some (.fullFile e2), w2, t1 ++ t2)
    | (none, w2, t2) =>
      match w2.update_reserve_step p with
      | (none, w3, t3) => (none, w3.update_finish_step p, t1 ++ t2 ++ t3)
      | (some e3, w3, t3) => (some (.fullFile e3), w3, t1 ++ t2 ++ t3)

/-- Modelled from the spec: the public `McapWriter::write` wrapper for messages
(declared in `McapWriter.hpp`, not under `src/`): catch `FullFileException`,
roll over and retry once; catch `FullDiskException` and report it through
`on_disk_full_`. -/
def write_message (w : Writer) (msg : McapMessage) :
    Option WErr × Writer × List Ev :=
  match w.write_message_nts msg with
  | (none, w1, t1) => (none, w1, t1)
  | (some e, w1, t1) =>
    match w1.on_mcap_full_nts e with
    | (some .fullDisk, w2, t2) =>
      (none, { w2 with disk_full_calls := w2.disk_full_calls + 1 },
       t1 ++ t2 ++ [.diskFullEv])
    | (some (.fullFile e2), w2, t2) => (some (.fullFile e2), w2, t1 ++ t2)
    | (none, w2, t2) =>
      match w2.write_message_nts msg with
      | (r, w3, t3) => (r.map WErr.fullFile, w3, t1 ++ t2 ++ t3)

/-- Modelled from the spec: the public `McapWriter::write` wrapper for schemas. -/
def write_schema (w : Writer) (s : Schema) : Option WErr × Writer × List Ev :=
  match w.write_schema_nts s with
  | (none, w1, t1) => (none, w1, t1)
  | (some e, w1, t1) =>
    match w1.on_mcap_full_nts e with
    | (some .fullDisk, w2, t2) =>
      (none, { w2 with disk_full_calls := w2.disk_full_calls + 1 },
       t1 ++ t2 ++ [.diskFullEv])
    | (some (.fullFile e2), w2, t2) => (some (.fullFile e2), w2, t1 ++ t2)
    | (none, w2, t2) =>
      match w2.write_schema_nts s with
      | (r, w3, t3) => (r.map WErr.fullFile, w3, t1 ++ t2 ++ t3)

/-- Modelled from the spec: the public `McapWriter::write` wrapper for channels. -/
def write_channel (w : Writer) (c : Channel) : Option WErr × Writer × List Ev :=
  match w.write_channel_nts c with
  | (none, w1, t1) => (none, w1, t1)
  | (some e, w1, t1) =>
    match w1.on_mcap_full_nts e with
    | (some .fullDisk, w2, t2) =>
      (none, { w2 with disk_full_calls := w2.disk_full_calls + 1 },
       t1 ++ t2 ++ [.diskFullEv])
    | (some (.fullFile e2), w2, t2) => (some (.fullFile e2), w2, t1 ++ t2)
    | (none, w2, t2) =>
      match w2.write_channel_nts c with
      | (r, w3, t3) => (r.map WErr.fullFile, w3, t1 ++ t2 ++ t3)

end Writer

/-- The operations a client (the `McapHandler`) may invoke on the writer. -/
inductive Op where
  | enableOp
  | disableOp
  | updateTypesOp (p : Payload)
  | writeMessageOp (m : McapMessage)
  | writeSchemaOp (s : Schema)
  | writeChannelOp (c : Channel)
deriving Repr, DecidableEq

/-- One writer operation: the escaped error (if any) and the resulting state. -/
def Writer.step_full (w : Writer) : Op → Option WErr × Writer
  | .enableOp => let (r, w1, _) := w.enable; (r, w1)
  | .disableOp => let (w1, _) := w.disable; (none, w1)
  | .updateTypesOp p => let (r, w1, _) := w.update_dynamic_types p; (r, w1)
  | .writeMessageOp m => let (r, w1, _) := w.write_message m; (r, w1)
  | .writeSchemaOp s => let (r, w1, _) := w.write_schema s; (r, w1)
  | .writeChannelOp c => let (r, w1, _) := w.write_channel c; (r, w1)

/-- The state after one operation (exceptions escaping to the caller leave the
writer in its mutated state, as in C++). -/
def Writer.step (w : Writer) (op : Op) : Writer := (w.step_full op).2

/-- The state after a sequence of operations. -/
def Writer.run (w : Writer) : List Op → Writer
  | [] => w
  | op :: ops => (w.step op).run ops

/-- Events produced directly by the item-level write paths (reservation, codec
status, commit), as opposed to rollover and disk-full escalation events. -/
def Ev.isCore : Ev → Bool
  | .reserveEv _ => true
  | .reserveFailEv _ => true
  | .codecEv _ => true
  | .commitEv _ => true
  | _ => false

/-- Fields of the writer that no internal (`_nts_`) routine modifies: the
configuration, the `record_types` flag, the `on_disk_full_` call counter and
the staged payload; an exhausted oracle also stays exhausted. -/
def Writer.SameCore (w w' : Writer) : Prop :=
  w'.configuration = w.configuration ∧ w'.record_types = w.record_types ∧
  w'.disk_full_calls = w.disk_full_calls ∧
  w'.dynamic_types_payload = w.dynamic_types_payload ∧
  (w.oracle = [] → w'.oracle = [])

/-- The writer of the C1 witness scenario: a single-file configuration
(`max_file_size = max_size = 50`) with the first file open. -/
def c1W : Writer := (Writer.mk0 ⟨50, 50, 0⟩ false []).run [Op.enableOp]

/-- The result of an `update_dynamic_types` call on `c1W` whose reservation
overflows: the rollover escalates to DiskFull. -/
def c1R : Option WErr × Writer × List Ev := c1W.update_dynamic_types ⟨1, 100⟩

/-- The result of enabling a writer whose disk budget cannot fit even the
minimum MCAP size: a DiskFull encounter inside `enable`. -/
def c1X : Option WErr × Writer × List Ev := (Writer.mk0 ⟨5, 5, 0⟩ false []).enable

/-- The records staged into a file at close time: the dynamic-types attachment
when `record_types` is set and a payload is staged, nothing otherwise. -/
def Writer.closeTail (w : Writer) : List Record :=
  match w.record_types, w.dynamic_types_payload with
  | true, some p => [Record.attachmentRec p]
  | _, _ => []

/-- The bytes committed by the close-time staging of the attachment. -/
def Writer.closeAdd (w : Writer) : Nat :=
  match w.record_types, w.dynamic_types_payload with
  | true, some p => p.length
  | _, _ => 0

def c2W : Writer := (Writer.mk0 ⟨100, 1000, 0⟩ true []).run
  [Op.enableOp, Op.writeSchemaOp ⟨1, 20⟩, Op.writeChannelOp ⟨1, 10⟩,
   Op.updateTypesOp ⟨5, 10⟩, Op.writeMessageOp ⟨30⟩]

def c2F : Option WErr × Writer × List Ev := c2W.on_mcap_full_nts ⟨30⟩

def c2ST : SizeTracker :=
  { max_file_size := 100, safety_margin := 0, written := 42, reserved := 40,
    attachment_pending := 10 }

def c5X : Writer :=
  (Writer.mk0 ⟨100, 1000, 0⟩ true []).run [Op.enableOp, Op.disableOp]

def c5W : Writer :=
  (Writer.mk0 ⟨100, 1000, 0⟩ true []).run [Op.enableOp, Op.updateTypesOp ⟨5, 10⟩]

/-- Whether an event is a reservation attempt of an item-level write. -/
def Ev.isReserveEv : Ev → Bool
  | .reserveEv _ => true
  | .reserveFailEv _ => true
  | _ => false

/-- Whether an event is an attachment-reservation attempt of
`update_dynamic_types`. -/
def Ev.isAttachEv : Ev → Bool
  | .attachReserveEv _ => true
  | _ => false

def c6W : Writer := (Writer.mk0 ⟨100, 1000, 0⟩ true []).run [Op.enableOp]

def c6ST : SizeTracker :=
  { max_file_size := 100, safety_margin := 0, written := 12, reserved := 25,
    attachment_pending := 25 }

def c9X : Writer :=
  (Writer.mk0 ⟨112, 300, 1⟩ true []).run [Op.enableOp, Op.updateTypesOp ⟨0, 0⟩]

def c10W : Writer := (Writer.mk0 ⟨100, 1000, 0⟩ false []).run [Op.enableOp]

def c4W : Writer := Writer.mk0 ⟨100, 124, 0⟩ true []

def c4Ops : List Op :=
  [Op.enableOp, Op.writeSchemaOp ⟨1, 30⟩, Op.writeSchemaOp ⟨2, 30⟩,
   Op.updateTypesOp ⟨7, 10⟩, Op.writeMessageOp ⟨20⟩, Op.writeSchemaOp ⟨3, 1⟩]

def c4R : Writer := c4W.run c4Ops

def c7W : Writer :=
  (Writer.mk0 ⟨100, 1000, 0⟩ false []).run [Op.enableOp, Op.writeSchemaOp ⟨1, 20⟩]

def c7E : Option WErr × Writer × List Ev := ((c7W.disable).1).enable

/-- State of the handler instance (`McapHandlerStateCode`, McapHandler.hpp
lines 56-62). -/
inductive McapHandlerStateCode where
  | STOPPED
  | RUNNING
  | PAUSED
deriving Repr, DecidableEq

/-- The `McapHandlerConfiguration` fields `add_data` depends on:
`max_pending_samples` (0 disables pending, -1 unbounded), `only_with_schema`
and `buffer_size`. -/
structure McapHandlerConfiguration where
  max_pending_samples : Int
  only_with_schema : Bool
  buffer_size : Nat
deriving Repr, DecidableEq

/-- A sample as tracked by the handler: the unique sequence number it was
assigned and whether it was bound to the blank schema. -/
structure HandlerSample where
  sequence_number : Nat
  with_blank_schema : Bool
deriving Repr, DecidableEq

/-- The `McapHandler` state (data members of McapHandler.hpp lines 468-517,
restricted to what `add_data` touches); `dumped` abstracts the samples handed
to the writer for persistence. -/
structure McapHandler where
  configuration : McapHandlerConfiguration
  state : McapHandlerStateCode
  unique_sequence_number : Nat
  samples_buffer : List HandlerSample
  pending_samples : List HandlerSample
  pending_samples_paused : List HandlerSample
  dumped : List HandlerSample
deriving Repr, DecidableEq

/-- Modelled from the spec: `McapHandler::add_data` (its implementation file is
not under `src/`; McapHandler.hpp lines 125-143 declare it).  In STOPPED the
sample is not processed; in RUNNING a sample with a known schema goes to the
buffer (dumped when `buffer_size` is reached), otherwise it is enqueued into
`pending_samples` when `max_pending_samples` is nonzero (evicting the oldest
when the queue is full: written unless `only_with_schema`, in which case it is
discarded), added to the buffer with the blank schema when pending is disabled
and `only_with_schema` is false, and discarded otherwise; in PAUSED an
unknown-schema sample is enqueued into `pending_samples_paused` under the same
overflow policy but evicted samples are always discarded.  Every accepted
sample receives the next unique sequence number; the returned option is the
assigned number (`none` when the sample was discarded without acceptance). -/
def McapHandler.add_data (h : McapHandler) (schema_known : Bool) :
    McapHandler × Option Nat :=
  match h.state with
  | .STOPPED => (h, none)
  | .RUNNING =>
    let n := h.unique_sequence_number + 1
    if schema_known then
      let buf := h.samples_buffer ++ [⟨n, false⟩]
      if buf.length = h.configuration.buffer_size then
        ({ h with unique_sequence_number := n, samples_buffer := [],
                  dumped := h.dumped ++ buf }, some n)
      else
        ({ h with unique_sequence_number := n, samples_buffer := buf }, some n)
    else if h.configuration.max_pending_samples ≠ 0 then
      if 0 ≤ h.configuration.max_pending_samples ∧
          h.configuration.max_pending_samples.toNat ≤ h.pending_samples.length then
        match h.pending_samples with
        | [] =>
          ({ h with unique_sequence_number := n,
                    pending_samples := [⟨n, true⟩] }, some n)
        | oldest :: rest =>
          if h.configuration.only_with_schema then
            ({ h with unique_sequence_number := n,
                      pending_samples := rest ++ [⟨n, true⟩] }, some n)
          else
            ({ h with unique_sequence_number := n,
                      pending_samples := rest ++ [⟨n, true⟩],
                      dumped := h.dumped ++ [oldest] }, some n)
      else
        ({ h with unique_sequence_number := n,
                  pending_samples := h.pending_samples ++ [⟨n, true⟩] }, some n)
    else if ¬ h.configuration.only_with_schema then
      ({ h with unique_sequence_number := n,
                samples_buffer := h.samples_buffer ++ [⟨n, true⟩] }, some n)
    else
      (h, none)
  | .PAUSED =>
    let n := h.unique_sequence_number + 1
    if schema_known then
      ({ h with unique_sequence_number := n,
                samples_buffer := h.samples_buffer ++ [⟨n, false⟩] }, some n)
    else if h.configuration.max_pending_samples ≠ 0 then
      if 0 ≤ h.configuration.max_pending_samples ∧
          h.configuration.max_pending_samples.toNat ≤
            h.pending_samples_paused.length then
        match h.pending_samples_paused with
        | [] =>
          ({ h with unique_sequence_number := n,
                    pending_samples_paused := [⟨n, true⟩] }, some n)
        | _ :: rest =>
          ({ h with unique_sequence_number := n,
                    pending_samples_paused := rest ++ [⟨n, true⟩] }, some n)
      else
        ({ h with unique_sequence_number := n,
                  pending_samples_paused :=
                    h.pending_samples_paused ++ [⟨n, true⟩] }, some n)
    else
      (h, none)

def c8H : McapHandler :=
  { configuration := { max_pending_samples := 10, only_with_schema := false,
                       buffer_size := 100 },
    state := .STOPPED, unique_sequence_number := 7, samples_buffer := [],
    pending_samples := [], pending_samples_paused := [], dumped := [] }

def c8R : McapHandler := { c8H with state := .RUNNING }

namespace Writer

theorem SameCore.refl (w : Writer) : SameCore w w :=
  ⟨rfl, rfl, rfl, rfl, fun h => h⟩

theorem SameCore.trans {w1 w2 w3 : Writer} (h1 : SameCore w1 w2)
    (h2 : SameCore w2 w3) : SameCore w1 w3 := by
  obtain ⟨a1, b1, c1, d1, e1⟩ := h1
  obtain ⟨a2, b2, c2, d2, e2⟩ := h2
  exact ⟨a2.trans a1, b2.trans b1, c2.trans c1, d2.trans d1, fun h => e2 (e1 h)⟩

theorem codec_write_pres (w : Writer) (rec : Record) :
    SameCore w (w.codec_write rec).1 ∧
    (w.codec_write rec).1.enabled = w.enabled ∧
    (w.codec_write rec).1.schemas = w.schemas ∧
    (w.codec_write rec).1.channels = w.channels ∧
    (w.codec_write rec).1.size_tracker = w.size_tracker ∧
    (w.codec_write rec).1.file_tracker = w.file_tracker ∧
    (w.codec_write rec).1.codec.is_open = w.codec.is_open := by
  unfold Writer.codec_write
  dsimp only
  split
  · split
    · refine ⟨⟨rfl, rfl, rfl, rfl, ?_⟩, rfl, rfl, rfl, rfl, rfl, ?_⟩
      · exact fun h0 => by simp [h0]
      · simp_all [Codec.add_record]
    · exact ⟨⟨rfl, rfl, rfl, rfl, fun h0 => by simp [h0]⟩, rfl, rfl, rfl, rfl, rfl, rfl⟩
  · exact ⟨SameCore.refl w, rfl, rfl, rfl, rfl, rfl, rfl⟩

theorem write_message_nts_pres (w : Writer) (m : McapMessage) :
    SameCore w (w.write_message_nts m).2.1 ∧
    (w.write_message_nts m).2.1.enabled = w.enabled ∧
    (w.write_message_nts m).2.1.schemas = w.schemas ∧
    (w.write_message_nts m).2.1.channels = w.channels ∧
    (w.write_message_nts m).2.1.codec.is_open = w.codec.is_open ∧
    (∀ e ∈ (w.write_message_nts m).2.2, e.isCore = true) := by
  unfold Writer.write_message_nts
  dsimp only
  split
  · exact ⟨SameCore.refl w, rfl, rfl, rfl, rfl, by simp⟩
  · split
    · exact ⟨SameCore.refl w, rfl, rfl, rfl, rfl, by simp [Ev.isCore]⟩
    · rename_i st hres
      have hc := codec_write_pres { w with size_tracker := st } (Record.messageRec m.dataSize)
      split
      · rename_i w2 hcw
        rw [hcw] at hc
        exact ⟨hc.1, hc.2.1, hc.2.2.1, hc.2.2.2.1, hc.2.2.2.2.2.2, by simp [Ev.isCore]⟩
      · rename_i w2 hcw
        rw [hcw] at hc
        refine ⟨hc.1, hc.2.1, hc.2.2.1, hc.2.2.2.1, hc.2.2.2.2.2.2, by simp [Ev.isCore]⟩

theorem write_metadata_item_nts_pres (w : Writer) (md : MetadataItem) :
    SameCore w (w.write_metadata_item_nts md).2.1 ∧
    (w.write_metadata_item_nts md).2.1.enabled = w.enabled ∧
    (w.write_metadata_item_nts md).2.1.schemas = w.schemas ∧
    (w.write_metadata_item_nts md).2.1.channels = w.channels ∧
    (w.write_metadata_item_nts md).2.1.codec.is_open = w.codec.is_open ∧
    (∀ e ∈ (w.write_metadata_item_nts md).2.2, e.isCore = true) := by
  unfold Writer.write_metadata_item_nts
  dsimp only
  split
  · exact ⟨SameCore.refl w, rfl, rfl, rfl, rfl, by simp [Ev.isCore]⟩
  · rename_i st hres
    have hc := codec_write_pres { w with size_tracker := st } (Record.metadataRec md.size)
    split
    · rename_i w2 hcw
      rw [hcw] at hc
      exact ⟨hc.1, hc.2.1, hc.2.2.1, hc.2.2.2.1, hc.2.2.2.2.2.2, by simp [Ev.isCore]⟩
    · rename_i w2 hcw
      rw [hcw] at hc
      exact ⟨hc.1, hc.2.1, hc.2.2.1, hc.2.2.2.1, hc.2.2.2.2.2.2, by simp [Ev.isCore]⟩

theorem write_attachment_item_nts_pres (w : Writer) (p : Payload) :
    SameCore w (w.write_attachment_item_nts p).1 ∧
    (w.write_attachment_item_nts p).1.enabled = w.enabled ∧
    (w.write_attachment_item_nts p).1.schemas = w.schemas ∧
    (w.write_attachment_item_nts p).1.channels = w.channels ∧
    (w.write_attachment_item_nts p).1.codec.is_open = w.codec.is_open ∧
    (∀ e ∈ (w.write_attachment_item_nts p).2, e.isCore = true) := by
  unfold Writer.write_attachment_item_nts
  have hc := codec_write_pres w (Record.attachmentRec p)
  split
  · rename_i w2 hcw
    rw [hcw] at hc
    exact ⟨hc.1, hc.2.1, hc.2.2.1, hc.2.2.2.1, hc.2.2.2.2.2.2, by simp [Ev.isCore]⟩
  · rename_i w2 hcw
    rw [hcw] at hc
    exact ⟨hc.1, hc.2.1, hc.2.2.1, hc.2.2.2.1, hc.2.2.2.2.2.2, by simp [Ev.isCore]⟩

theorem write_schema_nts_pres (w : Writer) (s : Schema) :
    SameCore w (w.write_schema_nts s).2.1 ∧
    (w.write_schema_nts s).2.1.enabled = w.enabled ∧
    (w.write_schema_nts s).2.1.channels = w.channels ∧
    (w.write_schema_nts s).2.1.codec.is_open = w.codec.is_open ∧
    (∀ e ∈ (w.write_schema_nts s).2.2, e.isCore = true) := by
  unfold Writer.write_schema_nts
  dsimp only
  split
  · exact ⟨SameCore.refl w, rfl, rfl, rfl, by simp [Ev.isCore]⟩
  · refine ⟨⟨rfl, rfl, rfl, rfl, fun h0 => h0⟩, rfl, rfl, ?_, by simp [Ev.isCore]⟩
    unfold Codec.add_record
    split <;> rfl

theorem write_channel_nts_pres (w : Writer) (c : Channel) :
    SameCore w (w.write_channel_nts c).2.1 ∧
    (w.write_channel_nts c).2.1.enabled = w.enabled ∧
    (w.write_channel_nts c).2.1.schemas = w.schemas ∧
    (w.write_channel_nts c).2.1.codec.is_open = w.codec.is_open ∧
    (∀ e ∈ (w.write_channel_nts c).2.2, e.isCore = true) := by
  unfold Writer.write_channel_nts
  dsimp only
  split
  · exact ⟨SameCore.refl w, rfl, rfl, rfl, by simp [Ev.isCore]⟩
  · refine ⟨⟨rfl, rfl, rfl, rfl, fun h0 => h0⟩, rfl, rfl, ?_, by simp [Ev.isCore]⟩
    unfold Codec.add_record
    split <;> rfl

theorem write_schema_list_nts_pres (w : Writer) (l : List Schema) :
    SameCore w (w.write_schema_list_nts l).2.1 ∧
    (w.write_schema_list_nts l).2.1.enabled = w.enabled ∧
    (w.write_schema_list_nts l).2.1.channels = w.channels ∧
    (w.write_schema_list_nts l).2.1.codec.is_open = w.codec.is_open ∧
    (∀ e ∈ (w.write_schema_list_nts l).2.2, e.isCore = true) := by
  induction l generalizing w with
  | nil => exact ⟨SameCore.refl w, rfl, rfl, rfl, by simp [write_schema_list_nts]⟩
  | cons s rest ih =>
    unfold Writer.write_schema_list_nts
    have hs := write_schema_nts_pres w s
    split
    · rename_i e w1 t hw
      rw [hw] at hs
      exact ⟨hs.1, hs.2.1, hs.2.2.1, hs.2.2.2.1, hs.2.2.2.2⟩
    · rename_i w1 t hw
      rw [hw] at hs
      have hr := ih w1
      split
      · rename_i r w2 t2 hl
        rw [hl] at hr
        refine ⟨hs.1.trans hr.1, hr.2.1.trans hs.2.1, hr.2.2.1.trans hs.2.2.1,
                hr.2.2.2.1.trans hs.2.2.2.1, ?_⟩
        intro e he
        rcases List.mem_append.mp he with h1 | h2
        · exact hs.2.2.2.2 e h1
        · exact hr.2.2.2.2 e h2

theorem write_channel_list_nts_pres (w : Writer) (l : List Channel) :
    SameCore w (w.write_channel_list_nts l).2.1 ∧
    (w.write_channel_list_nts l).2.1.enabled = w.enabled ∧
    (w.write_channel_list_nts l).2.1.schemas = w.schemas ∧
    (w.write_channel_list_nts l).2.1.codec.is_open = w.codec.is_open ∧
    (∀ e ∈ (w.write_channel_list_nts l).2.2, e.isCore = true) := by
  induction l generalizing w with
  | nil => exact ⟨SameCore.refl w, rfl, rfl, rfl, by simp [write_channel_list_nts]⟩
  | cons c rest ih =>
    unfold Writer.write_channel_list_nts
    have hs := write_channel_nts_pres w c
    split
    · rename_i e w1 t hw
      rw [hw] at hs
      exact ⟨hs.1, hs.2.1, hs.2.2.1, hs.2.2.2.1, hs.2.2.2.2⟩
    · rename_i w1 t hw
      rw [hw] at hs
      have hr := ih w1
      split
      · rename_i r w2 t2 hl
        rw [hl] at hr
        refine ⟨hs.1.trans hr.1, hr.2.1.trans hs.2.1, hr.2.2.1.trans hs.2.2.1,
                hr.2.2.2.1.trans hs.2.2.2.1, ?_⟩
        intro e he
        rcases List.mem_append.mp he with h1 | h2
        · exact hs.2.2.2.2 e h1
        · exact hr.2.2.2.2 e h2

theorem write_attachment_nts_pres (w : Writer) :
    SameCore w (w.write_attachment_nts).1 ∧
    (w.write_attachment_nts).1.enabled = w.enabled ∧
    (w.write_attachment_nts).1.schemas = w.schemas ∧
    (w.write_attachment_nts).1.channels = w.channels ∧
    (w.write_attachment_nts).1.codec.is_open = w.codec.is_open ∧
    (∀ e ∈ (w.write_attachment_nts).2, e.isCore = true) := by
  unfold Writer.write_attachment_nts
  split
  · exact write_attachment_item_nts_pres w _
  · exact ⟨SameCore.refl w, rfl, rfl, rfl, rfl, by simp⟩

theorem close_current_file_nts_pres (w : Writer) :
    SameCore w (w.close_current_file_nts).1 ∧
    (w.close_current_file_nts).1.enabled = w.enabled ∧
    (w.close_current_file_nts).1.schemas = w.schemas ∧
    (w.close_current_file_nts).1.channels = w.channels ∧
    (w.close_current_file_nts).1.codec.is_open = false ∧
    (w.close_current_file_nts).1.file_tracker.is_open = false ∧
    (∀ e ∈ (w.close_current_file_nts).2, e.isCore = true) := by
  unfold Writer.close_current_file_nts
  dsimp only
  split
  · obtain ⟨⟨c1, c2, c3, c4, c5⟩, e1, s1, ch1, o1, tr1⟩ := write_attachment_nts_pres w
    refine ⟨⟨c1, c2, c3, c4, c5⟩, e1, s1, ch1, ?_, ?_, tr1⟩
    · unfold Codec.close_file
      split <;> simp_all
    · unfold FileTracker.close_file
      split <;> simp_all
  · refine ⟨SameCore.refl w, rfl, rfl, rfl, ?_, ?_, by simp⟩
    · unfold Codec.close_file
      split <;> simp_all
    · unfold FileTracker.close_file
      split <;> simp_all

theorem open_new_file_nts_pres (w : Writer) (n : Nat) :
    SameCore w (w.open_new_file_nts n).2.1 ∧
    (w.open_new_file_nts n).2.1.enabled = w.enabled ∧
    (∀ e ∈ (w.open_new_file_nts n).2.2, e.isCore = true) := by
  unfold Writer.open_new_file_nts
  dsimp only
  split
  · exact ⟨SameCore.refl w, rfl, by simp⟩
  · rename_i ft1 hnf
    set w2 : Writer :=
      { w with file_tracker := ft1, codec := w.codec.open_file,
               size_tracker :=
                 (SizeTracker.init
                   (min w.configuration.max_file_size
                     (w.configuration.max_size - ft1.get_total_size))
                   w.configuration.safety_margin) } with hw2
    have h0 : SameCore w w2 := ⟨rfl, rfl, rfl, rfl, fun h => h⟩
    have hmd := write_metadata_item_nts_pres w2 ⟨METADATA_SIZE⟩
    split
    · rename_i e w3 t hmw
      rw [hmw] at hmd
      exact ⟨h0.trans hmd.1, hmd.2.1, hmd.2.2.2.2.2⟩
    · rename_i w3 t hmw
      rw [hmw] at hmd
      have hsl := write_schema_list_nts_pres w3 w3.schemas
      split
      · rename_i e w4 t2 hsw
        rw [hsw] at hsl
        refine ⟨(h0.trans hmd.1).trans hsl.1, hsl.2.1.trans hmd.2.1, ?_⟩
        intro e he
        rcases List.mem_append.mp he with h1 | h2
        · exact hmd.2.2.2.2.2 e h1
        · exact hsl.2.2.2.2 e h2
      · rename_i w4 t2 hsw
        rw [hsw] at hsl
        have hcl := write_channel_list_nts_pres w4 w4.channels
        split
        · rename_i e w5 t3 hcw
          rw [hcw] at hcl
          refine ⟨((h0.trans hmd.1).trans hsl.1).trans hcl.1,
                  (hcl.2.1.trans hsl.2.1).trans hmd.2.1, ?_⟩
          intro e he
          rcases List.mem_append.mp he with h1 | h2
          · rcases List.mem_append.mp h1 with h3 | h4
            · exact hmd.2.2.2.2.2 e h3
            · exact hsl.2.2.2.2 e h4
          · exact hcl.2.2.2.2 e h2
        · rename_i w5 t3 hcw
          rw [hcw] at hcl
          have hcore : SameCore w w5 := ((h0.trans hmd.1).trans hsl.1).trans hcl.1
          have hen : w5.enabled = w.enabled := (hcl.2.1.trans hsl.2.1).trans hmd.2.1
          have htr : ∀ e ∈ t ++ t2 ++ t3, e.isCore = true := by
            intro e he
            rcases List.mem_append.mp he with h1 | h2
            · rcases List.mem_append.mp h1 with h3 | h4
              · exact hmd.2.2.2.2.2 e h3
              · exact hsl.2.2.2.2 e h4
            · exact hcl.2.2.2.2 e h2
          split
          · split
            · refine ⟨hcore, hen, ?_⟩
              intro e he
              rcases List.mem_append.mp he with h1 | h2
              · exact htr e h1
              · simp_all [Ev.isCore]
            · rename_i st hat
              refine ⟨⟨hcore.1, hcore.2.1, hcore.2.2.1, hcore.2.2.2.1, hcore.2.2.2.2⟩,
                      hen, ?_⟩
              intro e he
              rcases List.mem_append.mp he with h1 | h2
              · exact htr e h1
              · simp_all [Ev.isCore]
          · exact ⟨hcore, hen, htr⟩

theorem on_mcap_full_nts_pres (w : Writer) (e : FullFileE) :
    SameCore w (w.on_mcap_full_nts e).2.1 ∧
    (∀ x ∈ (w.on_mcap_full_nts e).2.2, x = Ev.rolloverEv ∨ x.isCore = true) ∧
    ((w.on_mcap_full_nts e).1 = none → (w.on_mcap_full_nts e).2.1.enabled = true) ∧
    (∀ err, (w.on_mcap_full_nts e).1 = some err →
      (w.on_mcap_full_nts e).2.1.enabled = false) ∧
    Ev.rolloverEv ∈ (w.on_mcap_full_nts e).2.2 := by
  unfold Writer.on_mcap_full_nts
  dsimp only
  have hcl := close_current_file_nts_pres w
  split
  · refine ⟨⟨hcl.1.1, hcl.1.2.1, hcl.1.2.2.1, hcl.1.2.2.2.1, hcl.1.2.2.2.2⟩, ?_, ?_, ?_,
      List.mem_cons_self _ _⟩
    · intro x hx
      rcases List.mem_cons.mp hx with h1 | h2
      · exact Or.inl h1
      · exact Or.inr (hcl.2.2.2.2.2.2 x h2)
    · intro hnone
      simp at hnone
    · intro err _
      rfl
  · set wc : Writer := { (w.close_current_file_nts).1 with enabled := false } with hwc
    have hc2 : SameCore w wc :=
      ⟨hcl.1.1, hcl.1.2.1, hcl.1.2.2.1, hcl.1.2.2.2.1, hcl.1.2.2.2.2⟩
    have hop := open_new_file_nts_pres wc
      (wc.size_tracker.get_min_mcap_size + e.data_size_to_write)
    split
    · rename_i err w3 t2 how
      rw [how] at hop
      refine ⟨hc2.trans hop.1, ?_, ?_, ?_, List.mem_cons_self _ _⟩
      · intro x hx
        rcases List.mem_cons.mp hx with h1 | h2
        · exact Or.inl h1
        · rcases List.mem_append.mp h2 with h3 | h4
          · exact Or.inr (hcl.2.2.2.2.2.2 x h3)
          · exact Or.inr (hop.2.2 x h4)
      · intro hnone
        simp at hnone
      · intro err2 _
        exact hop.2.1
    · rename_i w3 t2 how
      rw [how] at hop
      refine ⟨?_, ?_, ?_, ?_, List.mem_cons_self _ _⟩
      · exact ⟨(hc2.trans hop.1).1, (hc2.trans hop.1).2.1, (hc2.trans hop.1).2.2.1,
               (hc2.trans hop.1).2.2.2.1, (hc2.trans hop.1).2.2.2.2⟩
      · intro x hx
        rcases List.mem_cons.mp hx with h1 | h2
        · exact Or.inl h1
        · rcases List.mem_append.mp h2 with h3 | h4
          · exact Or.inr (hcl.2.2.2.2.2.2 x h3)
          · exact Or.inr (hop.2.2 x h4)
      · intro _
        rfl
      · intro err2 herr
        simp at herr

theorem update_reserve_step_pres (w : Writer) (p : Payload) :
    SameCore w (w.update_reserve_step p).2.1 ∧
    (w.update_reserve_step p).2.1.enabled = w.enabled ∧
    (∀ e ∈ (w.update_reserve_step p).2.2, ∃ b, e = Ev.attachReserveEv b) := by
  unfold Writer.update_reserve_step
  split
  · exact ⟨SameCore.refl w, rfl, by simp⟩
  · exact ⟨⟨rfl, rfl, rfl, rfl, fun h => h⟩, rfl, by simp⟩

theorem codec_write_ok (w : Writer) (rec : Record) (hco : w.codec.is_open = true)
    (hor : w.oracle = []) :
    (w.codec_write rec).2 = true ∧
    (w.codec_write rec).1.codec.current = w.codec.current ++ [rec] ∧
    (w.codec_write rec).1.codec.files = w.codec.files ∧
    (w.codec_write rec).1.codec.is_open = true ∧
    (w.codec_write rec).1.oracle = [] ∧
    (w.codec_write rec).1.size_tracker = w.size_tracker ∧
    (w.codec_write rec).1.file_tracker = w.file_tracker ∧
    (w.codec_write rec).1.schemas = w.schemas ∧
    (w.codec_write rec).1.channels = w.channels ∧
    (w.codec_write rec).1.dynamic_types_payload = w.dynamic_types_payload ∧
    (w.codec_write rec).1.record_types = w.record_types ∧
    (w.codec_write rec).1.enabled = w.enabled ∧
    (w.codec_write rec).1.configuration = w.configuration := by
  unfold Writer.codec_write
  simp [hco, hor, Codec.add_record]

theorem write_metadata_ok (w : Writer) (md : MetadataItem) (w' : Writer)
    (t : List Ev) (hco : w.codec.is_open = true) (hor : w.oracle = [])
    (h : w.write_metadata_item_nts md = (none, w', t)) :
    w'.codec.current = w.codec.current ++ [Record.metadataRec md.size] ∧
    w'.codec.files = w.codec.files ∧
    w'.codec.is_open = true ∧
    w'.oracle = [] ∧
    w'.size_tracker.max_file_size = w.size_tracker.max_file_size ∧
    w'.size_tracker.safety_margin = w.size_tracker.safety_margin ∧
    w'.size_tracker.attachment_pending = w.size_tracker.attachment_pending ∧
    w'.file_tracker.max_file_size = w.file_tracker.max_file_size ∧
    w'.file_tracker.max_size = w.file_tracker.max_size ∧
    w'.file_tracker.closed_sizes = w.file_tracker.closed_sizes ∧
    w'.file_tracker.is_open = w.file_tracker.is_open ∧
    w'.schemas = w.schemas ∧
    w'.channels = w.channels ∧
    w'.dynamic_types_payload = w.dynamic_types_payload ∧
    w'.record_types = w.record_types := by
  unfold Writer.write_metadata_item_nts at h
  dsimp only at h
  split at h
  · simp at h
  · rename_i st hres
    have hok := codec_write_ok { w with size_tracker := st }
      (Record.metadataRec md.size) hco hor
    split at h
    · rename_i w2 hcw
      rw [hcw] at hok
      simp at hok
    · rename_i w2 hcw
      rw [hcw] at hok
      simp only [Prod.mk.injEq] at h
      obtain ⟨rfl, rfl⟩ := h.2
      obtain ⟨b1, b2, b3, b4, b5, b6, b7, b8, b9, b10, b11, b12, b13⟩ := hok
      have hst : w2.size_tracker = { w.size_tracker with
          reserved := w.size_tracker.reserved + md.size } := by
        unfold SizeTracker.reserve at hres
        split at hres
        · simp at hres
        · simp only [Except.ok.injEq] at hres
          rw [b6, ← hres]
      refine ⟨b2, b3, b4, b5, ?_, ?_, ?_, ?_, ?_, ?_, ?_, b8, b9, b10, b11⟩ <;>
        simp [SizeTracker.commit, hst, b7, FileTracker.set_current_file_size] <;>
        (try split) <;> simp_all

theorem write_schema_nts_ok (w : Writer) (s : Schema) (w' : Writer)
    (t : List Ev) (hco : w.codec.is_open = true)
    (h : w.write_schema_nts s = (none, w', t)) :
    w'.codec.current = w.codec.current ++ [Record.schemaRec s] ∧
    w'.codec.files = w.codec.files ∧
    w'.codec.is_open = true ∧
    w'.oracle = w.oracle ∧
    w'.size_tracker.max_file_size = w.size_tracker.max_file_size ∧
    w'.size_tracker.safety_margin = w.size_tracker.safety_margin ∧
    w'.size_tracker.attachment_pending = w.size_tracker.attachment_pending ∧
    w'.file_tracker.max_file_size = w.file_tracker.max_file_size ∧
    w'.file_tracker.max_size = w.file_tracker.max_size ∧
    w'.file_tracker.closed_sizes = w.file_tracker.closed_sizes ∧
    w'.file_tracker.is_open = w.file_tracker.is_open ∧
    w'.channels = w.channels ∧
    w'.dynamic_types_payload = w.dynamic_types_payload ∧
    w'.record_types = w.record_types := by
  unfold Writer.write_schema_nts at h
  dsimp only at h
  split at h
  · simp at h
  · rename_i st hres
    simp only [Prod.mk.injEq] at h
    obtain ⟨rfl, rfl⟩ := h.2
    have hst : st = { w.size_tracker with
        reserved := w.size_tracker.reserved + s.size } := by
      unfold SizeTracker.reserve at hres
      split at hres
      · simp at hres
      · simp only [Except.ok.injEq] at hres
        rw [← hres]
    subst hst
    refine ⟨?_, ?_, ?_, rfl, ?_, ?_, ?_, ?_, ?_, ?_, ?_, rfl, rfl, rfl⟩ <;>
      simp [Codec.add_record, hco, SizeTracker.commit,
            FileTracker.set_current_file_size] <;>
      (try split) <;> simp_all

theorem write_channel_nts_ok (w : Writer) (c : Channel) (w' : Writer)
    (t : List Ev) (hco : w.codec.is_open = true)
    (h : w.write_channel_nts c = (none, w', t)) :
    w'.codec.current = w.codec.current ++ [Record.channelRec c] ∧
    w'.codec.files = w.codec.files ∧
    w'.codec.is_open = true ∧
    w'.oracle = w.oracle ∧
    w'.size_tracker.max_file_size = w.size_tracker.max_file_size ∧
    w'.size_tracker.safety_margin = w.size_tracker.safety_margin ∧
    w'.size_tracker.attachment_pending = w.size_tracker.attachment_pending ∧
    w'.file_tracker.max_file_size = w.file_tracker.max_file_size ∧
    w'.file_tracker.max_size = w.file_tracker.max_size ∧
    w'.file_tracker.closed_sizes = w.file_tracker.closed_sizes ∧
    w'.file_tracker.is_open = w.file_tracker.is_open ∧
    w'.schemas = w.schemas ∧
    w'.dynamic_types_payload = w.dynamic_types_payload ∧
    w'.record_types = w.record_types := by
  unfold Writer.write_channel_nts at h
  dsimp only at h
  split at h
  · simp at h
  · rename_i st hres
    simp only [Prod.mk.injEq] at h
    obtain ⟨rfl, rfl⟩ := h.2
    have hst : st = { w.size_tracker with
        reserved := w.size_tracker.reserved + c.size } := by
      unfold SizeTracker.reserve at hres
      split at hres
      · simp at hres
      · simp only [Except.ok.injEq] at hres
        rw [← hres]
    subst hst
    refine ⟨?_, ?_, ?_, rfl, ?_, ?_, ?_, ?_, ?_, ?_, ?_, rfl, rfl, rfl⟩ <;>
      simp [Codec.add_record, hco, SizeTracker.commit,
            FileTracker.set_current_file_size] <;>
      (try split) <;> simp_all

theorem write_schema_list_ok (l : List Schema) : ∀ (w : Writer) (w' : Writer)
    (t : List Ev), w.codec.is_open = true →
    w.write_schema_list_nts l = (none, w', t) →
    w'.codec.current = w.codec.current ++ l.map Record.schemaRec ∧
    w'.codec.files = w.codec.files ∧
    w'.codec.is_open = true ∧
    w'.oracle = w.oracle ∧
    w'.size_tracker.max_file_size = w.size_tracker.max_file_size ∧
    w'.size_tracker.safety_margin = w.size_tracker.safety_margin ∧
    w'.size_tracker.attachment_pending = w.size_tracker.attachment_pending ∧
    w'.file_tracker.max_file_size = w.file_tracker.max_file_size ∧
    w'.file_tracker.max_size = w.file_tracker.max_size ∧
    w'.file_tracker.closed_sizes = w.file_tracker.closed_sizes ∧
    w'.file_tracker.is_open = w.file_tracker.is_open ∧
    w'.channels = w.channels ∧
    w'.dynamic_types_payload = w.dynamic_types_payload ∧
    w'.record_types = w.record_types := by
  induction l with
  | nil =>
    intro w w' t hco h
    unfold Writer.write_schema_list_nts at h
    simp only [Prod.mk.injEq] at h
    obtain ⟨rfl, rfl⟩ := h.2
    simp [hco]
  | cons s rest ih =>
    intro w w' t hco h
    unfold Writer.write_schema_list_nts at h
    split at h
    · simp at h
    · rename_i w1 t1 hw
      obtain ⟨a1, a2, a3, a4, a5, a6, a7, a8, a9, a10, a11, a12, a13, a14⟩ :=
        write_schema_nts_ok w s w1 t1 hco hw
      split at h
      · rename_i r w2 t2 hl
        simp only [Prod.mk.injEq] at h
        obtain ⟨rfl, rfl, rfl⟩ := h
        obtain ⟨b1, b2, b3, b4, b5, b6, b7, b8, b9, b10, b11, b12, b13, b14⟩ :=
          ih w1 _ _ a3 hl
        refine ⟨?_, b2.trans a2, b3, b4.trans a4, b5.trans a5, b6.trans a6,
                b7.trans a7, b8.trans a8, b9.trans a9, b10.trans a10,
                b11.trans a11, b12.trans a12, b13.trans a13, b14.trans a14⟩
        rw [b1, a1]
        simp

theorem write_channel_list_ok (l : List Channel) : ∀ (w : Writer) (w' : Writer)
    (t : List Ev), w.codec.is_open = true →
    w.write_channel_list_nts l = (none, w', t) →
    w'.codec.current = w.codec.current ++ l.map Record.channelRec ∧
    w'.codec.files = w.codec.files ∧
    w'.codec.is_open = true ∧
    w'.oracle = w.oracle ∧
    w'.size_tracker.max_file_size = w.size_tracker.max_file_size ∧
    w'.size_tracker.safety_margin = w.size_tracker.safety_margin ∧
    w'.size_tracker.attachment_pending = w.size_tracker.attachment_pending ∧
    w'.file_tracker.max_file_size = w.file_tracker.max_file_size ∧
    w'.file_tracker.max_size = w.file_tracker.max_size ∧
    w'.file_tracker.closed_sizes = w.file_tracker.closed_sizes ∧
    w'.file_tracker.is_open = w.file_tracker.is_open ∧
    w'.schemas = w.schemas ∧
    w'.dynamic_types_payload = w.dynamic_types_payload ∧
    w'.record_types = w.record_types := by
  induction l with
  | nil =>
    intro w w' t hco h
    unfold Writer.write_channel_list_nts at h
    simp only [Prod.mk.injEq] at h
    obtain ⟨rfl, rfl⟩ := h.2
    simp [hco]
  | cons c rest ih =>
    intro w w' t hco h
    unfold Writer.write_channel_list_nts at h
    split at h
    · simp at h
    · rename_i w1 t1 hw
      obtain ⟨a1, a2, a3, a4, a5, a6, a7, a8, a9, a10, a11, a12, a13, a14⟩ :=
        write_channel_nts_ok w c w1 t1 hco hw
      split at h
      · rename_i r w2 t2 hl
        simp only [Prod.mk.injEq] at h
        obtain ⟨rfl, rfl, rfl⟩ := h
        obtain ⟨b1, b2, b3, b4, b5, b6, b7, b8, b9, b10, b11, b12, b13, b14⟩ :=
          ih w1 _ _ a3 hl
        refine ⟨?_, b2.trans a2, b3, b4.trans a4, b5.trans a5, b6.trans a6,
                b7.trans a7, b8.trans a8, b9.trans a9, b10.trans a10,
                b11.trans a11, b12.trans a12, b13.trans a13, b14.trans a14⟩
        rw [b1, a1]
        simp

theorem write_attachment_item_ok (w : Writer) (p : Payload)
    (hco : w.codec.is_open = true) (hor : w.oracle = []) :
    (w.write_attachment_item_nts p).1.codec.current
      = w.codec.current ++ [Record.attachmentRec p] ∧
    (w.write_attachment_item_nts p).1.codec.files = w.codec.files ∧
    (w.write_attachment_item_nts p).1.codec.is_open = true ∧
    (w.write_attachment_item_nts p).1.oracle = [] ∧
    (w.write_attachment_item_nts p).1.size_tracker.written
      = w.size_tracker.written + p.length ∧
    (w.write_attachment_item_nts p).1.size_tracker.attachment_pending
      = w.size_tracker.attachment_pending ∧
    (w.write_attachment_item_nts p).1.size_tracker.max_file_size
      = w.size_tracker.max_file_size ∧
    (w.write_attachment_item_nts p).1.size_tracker.safety_margin
      = w.size_tracker.safety_margin ∧
    (w.write_attachment_item_nts p).1.file_tracker.max_file_size
      = w.file_tracker.max_file_size ∧
    (w.write_attachment_item_nts p).1.file_tracker.max_size
      = w.file_tracker.max_size ∧
    (w.write_attachment_item_nts p).1.file_tracker.closed_sizes
      = w.file_tracker.closed_sizes ∧
    (w.write_attachment_item_nts p).1.file_tracker.is_open
      = w.file_tracker.is_open ∧
    (w.write_attachment_item_nts p).1.schemas = w.schemas ∧
    (w.write_attachment_item_nts p).1.channels = w.channels ∧
    (w.write_attachment_item_nts p).1.dynamic_types_payload
      = w.dynamic_types_payload ∧
    (w.write_attachment_item_nts p).1.record_types = w.record_types ∧
    (w.write_attachment_item_nts p).1.enabled = w.enabled ∧
    (w.write_attachment_item_nts p).1.configuration = w.configuration := by
  unfold Writer.write_attachment_item_nts
  have hok := codec_write_ok w (Record.attachmentRec p) hco hor
  split
  · rename_i w2 hcw
    rw [hcw] at hok
    simp at hok
  · rename_i w2 hcw
    rw [hcw] at hok
    obtain ⟨b1, b2, b3, b4, b5, b6, b7, b8, b9, b10, b11, b12, b13⟩ := hok
    refine ⟨b2, b3, b4, b5, ?_, ?_, ?_, ?_, ?_, ?_, ?_, ?_, b8, b9, b10, b11, b12, b13⟩ <;>
      simp [SizeTracker.commit, b6, b7, FileTracker.set_current_file_size] <;>
      (try split) <;> simp_all

theorem close_shape (w : Writer) (hco : w.codec.is_open = true)
    (hor : w.oracle = []) :
    (w.close_current_file_nts).1.codec.files
      = w.codec.files ++ [w.codec.current ++ w.closeTail] ∧
    (w.close_current_file_nts).1.size_tracker.attachment_pending
      = w.size_tracker.attachment_pending ∧
    (w.close_current_file_nts).1.size_tracker.written = 0 ∧
    (w.close_current_file_nts).1.size_tracker.reserved = 0 ∧
    (w.close_current_file_nts).1.size_tracker.max_file_size
      = w.size_tracker.max_file_size ∧
    (w.close_current_file_nts).1.size_tracker.safety_margin
      = w.size_tracker.safety_margin ∧
    (w.close_current_file_nts).1.oracle = [] ∧
    (w.close_current_file_nts).1.file_tracker.max_file_size
      = w.file_tracker.max_file_size ∧
    (w.close_current_file_nts).1.file_tracker.max_size
      = w.file_tracker.max_size ∧
    (w.file_tracker.is_open = true →
      (w.close_current_file_nts).1.file_tracker.closed_sizes
        = w.file_tracker.closed_sizes ++ [w.size_tracker.written + w.closeAdd]) ∧
    (w.file_tracker.is_open = false →
      (w.close_current_file_nts).1.file_tracker.closed_sizes
        = w.file_tracker.closed_sizes) ∧
    (w.close_current_file_nts).1.schemas = w.schemas ∧
    (w.close_current_file_nts).1.channels = w.channels ∧
    (w.close_current_file_nts).1.dynamic_types_payload = w.dynamic_types_payload ∧
    (w.close_current_file_nts).1.record_types = w.record_types ∧
    (w.close_current_file_nts).1.enabled = w.enabled ∧
    (w.close_current_file_nts).1.configuration = w.configuration := by
  unfold Writer.close_current_file_nts
  dsimp only
  split
  · rename_i pv hrt hp
    obtain ⟨a1, a2, a3, a4, a5, a6, a7, a8, a9, a10, a11, a12, a13, a14, a15,
            a16, a17, a18⟩ := write_attachment_item_ok w pv hco hor
    have hat0 : Writer.write_attachment_nts w = w.write_attachment_item_nts pv := by
      unfold Writer.write_attachment_nts
      rw [hp]
    rw [hat0]
    refine ⟨?_, ?_, ?_, ?_, ?_, ?_, a4, ?_, ?_, ?_, ?_, a13, a14, a15, a16, a17, a18⟩
    · unfold Codec.close_file
      rw [a3, a2, a1]
      simp [Writer.closeTail, hrt, hp]
    · simp [SizeTracker.reset, a6]
    · simp [SizeTracker.reset]
    · simp [SizeTracker.reset]
    · simp [SizeTracker.reset, a7]
    · simp [SizeTracker.reset, a8]
    · unfold FileTracker.close_file FileTracker.set_current_file_size
      split <;> simp_all
    · unfold FileTracker.close_file FileTracker.set_current_file_size
      split <;> simp_all
    · intro hopen
      have hfo : (w.write_attachment_item_nts pv).1.file_tracker.is_open = true :=
        a12.trans hopen
      unfold FileTracker.close_file FileTracker.set_current_file_size
      rw [hfo]
      simp [hfo, a11, a5, SizeTracker.get_written_mcap_size, Writer.closeAdd, hrt, hp]
    · intro hclosed
      have hfo : (w.write_attachment_item_nts pv).1.file_tracker.is_open = false :=
        a12.trans hclosed
      unfold FileTracker.close_file FileTracker.set_current_file_size
      rw [hfo]
      simp [hfo, a11]
  · rename_i hnot
    have htl : w.closeTail = [] := by
      unfold Writer.closeTail
      split
      · rename_i hrt hp
        exact (hnot _ hrt hp).elim
      · rfl
    have hadd : w.closeAdd = 0 := by
      unfold Writer.closeAdd
      split
      · rename_i hrt hp
        exact (hnot _ hrt hp).elim
      · rfl
    refine ⟨?_, ?_, ?_, ?_, ?_, ?_, hor, ?_, ?_, ?_, ?_, rfl, rfl, rfl, rfl, rfl, rfl⟩
    · unfold Codec.close_file
      rw [htl]
      simp [hco]
    · simp [SizeTracker.reset]
    · simp [SizeTracker.reset]
    · simp [SizeTracker.reset]
    · simp [SizeTracker.reset]
    · simp [SizeTracker.reset]
    · unfold FileTracker.close_file FileTracker.set_current_file_size
      split <;> simp_all
    · unfold FileTracker.close_file FileTracker.set_current_file_size
      split <;> simp_all
    · intro hopen
      unfold FileTracker.close_file FileTracker.set_current_file_size
      rw [hopen, hadd]
      simp [hopen, SizeTracker.get_written_mcap_size]
    · intro hclosed
      unfold FileTracker.close_file FileTracker.set_current_file_size
      rw [hclosed]
      simp [hclosed]

theorem open_success (w : Writer) (n : Nat) (w' : Writer) (t : List Ev)
    (hor : w.oracle = []) (h : w.open_new_file_nts n = (none, w', t)) :
    w'.codec.current = Record.metadataRec METADATA_SIZE ::
      (w.schemas.map Record.schemaRec ++ w.channels.map Record.channelRec) ∧
    w'.codec.files = w.codec.files ∧
    w'.size_tracker.max_file_size = min w.configuration.max_file_size
      (w.configuration.max_size - w.file_tracker.get_total_size) ∧
    n ≤ min w.file_tracker.max_file_size
      (w.file_tracker.max_size - w.file_tracker.get_total_size) ∧
    (∀ q : Payload, w.record_types = true → w.dynamic_types_payload = some q →
      q.length ≤ w'.size_tracker.reserved) ∧
    w'.codec.is_open = true ∧
    w'.file_tracker.is_open = true ∧
    w'.file_tracker.closed_sizes = w.file_tracker.closed_sizes ∧
    w'.file_tracker.max_file_size = w.file_tracker.max_file_size ∧
    w'.file_tracker.max_size = w.file_tracker.max_size ∧
    w'.oracle = [] := by
  unfold Writer.open_new_file_nts at h
  dsimp only at h
  split at h
  · simp at h
  · rename_i ft1 hnf
    unfold FileTracker.new_file at hnf
    split at hnf
    · rename_i hle
      simp only [Except.ok.injEq] at hnf
      subst hnf
      split at h
      · simp at h
      · rename_i w3 t1 hmw
        obtain ⟨m1, m2, m3, m4, m5, m6, m7, m8, m9, m10, m11, m12, m13, m14, m15⟩ :=
          write_metadata_ok _ ⟨METADATA_SIZE⟩ w3 t1 (by rfl) (by exact hor) hmw
        have hcur3 : w3.codec.current = [Record.metadataRec METADATA_SIZE] := m1
        have hfil3 : w3.codec.files = w.codec.files := m2
        have hsch3 : w3.schemas = w.schemas := m12
        have hchn3 : w3.channels = w.channels := m13
        have hmax3 : w3.size_tracker.max_file_size =
            min w.configuration.max_file_size
              (w.configuration.max_size - w.file_tracker.get_total_size) := by
          refine m5.trans ?_
          simp [SizeTracker.init, FileTracker.get_total_size]
        have hfo3 : w3.file_tracker.is_open = true := m11
        have hfc3 : w3.file_tracker.closed_sizes = w.file_tracker.closed_sizes := m10
        have hfm3 : w3.file_tracker.max_file_size = w.file_tracker.max_file_size := m8
        have hfs3 : w3.file_tracker.max_size = w.file_tracker.max_size := m9
        have hpay3 : w3.dynamic_types_payload = w.dynamic_types_payload := m14
        have hrt3 : w3.record_types = w.record_types := m15
        split at h
        · simp at h
        · rename_i w4 t2 hsw
          obtain ⟨s1, s2, s3, s4, s5, s6, s7, s8, s9, s10, s11, s12, s13, s14⟩ :=
            write_schema_list_ok w3.schemas w3 w4 t2 m3 hsw
          split at h
          · simp at h
          · rename_i w5 t3 hcw
            obtain ⟨c1, c2, c3, c4, c5, c6, c7, c8, c9, c10, c11, c12, c13, c14⟩ :=
              write_channel_list_ok w4.channels w4 w5 t3 s3 hcw
            have hcur5 : w5.codec.current = Record.metadataRec METADATA_SIZE ::
                (w.schemas.map Record.schemaRec ++
                 w.channels.map Record.channelRec) := by
              rw [c1, s1, hcur3, s12.trans hchn3, hsch3]
              simp
            have hfil5 : w5.codec.files = w.codec.files :=
              (c2.trans s2).trans hfil3
            have hmax5 : w5.size_tracker.max_file_size =
                min w.configuration.max_file_size
                  (w.configuration.max_size - w.file_tracker.get_total_size) :=
              (c5.trans s5).trans hmax3
            have hpay5 : w5.dynamic_types_payload = w.dynamic_types_payload :=
              (c13.trans s13).trans hpay3
            have hrt5 : w5.record_types = w.record_types :=
              (c14.trans s14).trans hrt3
            have hfo5 : w5.file_tracker.is_open = true :=
              (c11.trans s11).trans hfo3
            have hfc5 : w5.file_tracker.closed_sizes =
                w.file_tracker.closed_sizes :=
              (c10.trans s10).trans hfc3
            have hfm5 : w5.file_tracker.max_file_size =
                w.file_tracker.max_file_size :=
              (c8.trans s8).trans hfm3
            have hfs5 : w5.file_tracker.max_size = w.file_tracker.max_size :=
              (c9.trans s9).trans hfs3
            have horc5 : w5.oracle = [] := (c4.trans s4).trans m4
            have hd0 : n ≤ min w.file_tracker.max_file_size
                (w.file_tracker.max_size - w.file_tracker.get_total_size) := by
              simpa [FileTracker.get_total_size] using hle
            split at h
            · rename_i p hpm hrtm
              split at h
              · simp at h
              · rename_i st hat
                simp only [Prod.mk.injEq] at h
                obtain ⟨h1, h2, h3⟩ := h
                subst h2
                unfold SizeTracker.attachment_to_write at hat
                split at hat
                · simp at hat
                · simp only [Except.ok.injEq] at hat
                  subst hat
                  refine ⟨hcur5, hfil5, hmax5, hd0, ?_, c3, ?_, ?_, ?_, ?_, horc5⟩
                  · intro q hqrt hqp
                    have hqp2 : some q = some p := (hqp.symm.trans hpay5.symm).trans hpm
                    have hq : q = p := by
                      simpa using hqp2
                    subst hq
                    show q.length ≤ w5.size_tracker.reserved - 0 + q.length
                    omega
                  · unfold FileTracker.set_current_file_size
                    split <;> exact hfo5
                  · unfold FileTracker.set_current_file_size
                    split <;> exact hfc5
                  · unfold FileTracker.set_current_file_size
                    split <;> exact hfm5
                  · unfold FileTracker.set_current_file_size
                    split <;> exact hfs5
            · rename_i hnone
              simp only [Prod.mk.injEq] at h
              obtain ⟨h1, h2, h3⟩ := h
              subst h2
              refine ⟨hcur5, hfil5, hmax5, hd0, ?_, c3, ?_, ?_, ?_, ?_, horc5⟩
              · intro q hqrt hqp
                exact ((hnone q (hpay5.trans hqp) (hrt5.trans hqrt)).elim)
              · unfold FileTracker.set_current_file_size
                split <;> exact hfo5
              · unfold FileTracker.set_current_file_size
                split <;> exact hfc5
              · unfold FileTracker.set_current_file_size
                split <;> exact hfm5
              · unfold FileTracker.set_current_file_size
                split <;> exact hfs5
    · simp at hnf

end Writer

theorem update_diskFull_lemma :
    ∀ (w : Writer) (p : Payload) (r : Option WErr) (w1 : Writer) (t : List Ev),
      w.update_dynamic_types p = (r, w1, t) → Ev.diskFullEv ∈ t →
        w1.enabled = false ∧ w1.disk_full_calls = w.disk_full_calls + 1 ∧
        (∀ m : McapMessage, w1.write_message_nts m = (none, w1, [])) := by
    intro w p r w1 t h hmem
    unfold Writer.update_dynamic_types at h
    have hrs := Writer.update_reserve_step_pres w p
    split at h
    · rename_i w1a t1 hstep
      rw [hstep] at hrs
      simp only [Prod.mk.injEq] at h
      obtain ⟨rfl, rfl, rfl⟩ := h
      obtain ⟨b, hb⟩ := hrs.2.2 _ hmem
      simp at hb
    · rename_i e w1a t1 hstep
      rw [hstep] at hrs
      have hful := Writer.on_mcap_full_nts_pres w1a e
      split at h
      · rename_i w2 t2 hfw
        rw [hfw] at hful
        simp only [Prod.mk.injEq] at h
        obtain ⟨rfl, rfl, rfl⟩ := h
        have hen : w2.enabled = false := hful.2.2.2.1 _ rfl
        have hcalls : w2.disk_full_calls = w.disk_full_calls :=
          (hful.1.2.2.1).trans hrs.1.2.2.1
        refine ⟨hen, by simp [Writer.update_finish_step, hcalls], ?_⟩
        intro m
        have hen2 : (Writer.update_finish_step
            { w2 with disk_full_calls := w2.disk_full_calls + 1 } p).enabled = false := hen
        unfold Writer.write_message_nts
        simp [hen2]
      · rename_i e2 w2 t2 hfw
        rw [hfw] at hful
        simp only [Prod.mk.injEq] at h
        obtain ⟨rfl, rfl, rfl⟩ := h
        rcases List.mem_append.mp hmem with h1 | h2
        · obtain ⟨b, hb⟩ := hrs.2.2 _ h1
          simp at hb
        · rcases hful.2.1 _ h2 with h3 | h3
          · simp at h3
          · simp [Ev.isCore] at h3
      · rename_i w2 t2 hfw
        rw [hfw] at hful
        have hrs2 := Writer.update_reserve_step_pres w2 p
        split at h
        · rename_i w3 t3 hstep2
          rw [hstep2] at hrs2
          simp only [Prod.mk.injEq] at h
          obtain ⟨rfl, rfl, rfl⟩ := h
          rcases List.mem_append.mp hmem with h1 | h2
          · rcases List.mem_append.mp h1 with h3 | h4
            · obtain ⟨b, hb⟩ := hrs.2.2 _ h3
              simp at hb
            · rcases hful.2.1 _ h4 with h5 | h5
              · simp at h5
              · simp [Ev.isCore] at h5
          · obtain ⟨b, hb⟩ := hrs2.2.2 _ h2
            simp at hb
        · rename_i e3 w3 t3 hstep2
          rw [hstep2] at hrs2
          simp only [Prod.mk.injEq] at h
          obtain ⟨rfl, rfl, rfl⟩ := h
          rcases List.mem_append.mp hmem with h1 | h2
          · rcases List.mem_append.mp h1 with h3 | h4
            · obtain ⟨b, hb⟩ := hrs.2.2 _ h3
              simp at hb
            · rcases hful.2.1 _ h4 with h5 | h5
              · simp at h5
              · simp [Ev.isCore] at h5
          · obtain ⟨b, hb⟩ := hrs2.2.2 _ h2
            simp at hb

/-- Claim C1 (amended): whenever a DiskFull condition arises during a rollover
(from `update_dynamic_types` or from a message write), the writer disables
itself, `on_disk_full` fires exactly once for the encounter, and every
subsequent message write is a no-op leaving the state unchanged; when DiskFull
arises inside `enable`, the callback fires once for the encounter but the
writer nevertheless marks itself enabled. -/
theorem c1_disk_full_behaviour :
    (∀ (w : Writer) (p : Payload) (r : Option WErr) (w1 : Writer) (t : List Ev),
      w.update_dynamic_types p = (r, w1, t) → Ev.diskFullEv ∈ t →
        w1.enabled = false ∧ w1.disk_full_calls = w.disk_full_calls + 1 ∧
        (∀ m : McapMessage, w1.write_message_nts m = (none, w1, []))) ∧
    (∀ (w : Writer) (m : McapMessage) (r : Option WErr) (w1 : Writer) (t : List Ev),
      w.write_message m = (r, w1, t) → Ev.diskFullEv ∈ t →
        w1.enabled = false ∧ w1.disk_full_calls = w.disk_full_calls + 1 ∧
        (∀ m2 : McapMessage, w1.write_message_nts m2 = (none, w1, []))) ∧
    (∀ (w : Writer) (r : Option WErr) (w1 : Writer) (t : List Ev),
      w.enable = (r, w1, t) → Ev.diskFullEv ∈ t →
        w1.enabled = true ∧ w1.disk_full_calls = w.disk_full_calls + 1) := by
  refine ⟨update_diskFull_lemma, ?_, ?_⟩
  · intro w m r w1 t h hmem
    unfold Writer.write_message at h
    have hw1 := Writer.write_message_nts_pres w m
    split at h
    · rename_i w1a t1 hwm
      rw [hwm] at hw1
      simp only [Prod.mk.injEq] at h
      obtain ⟨rfl, rfl, rfl⟩ := h
      have := hw1.2.2.2.2.2 _ hmem
      simp [Ev.isCore] at this
    · rename_i e w1a t1 hwm
      rw [hwm] at hw1
      have hful := Writer.on_mcap_full_nts_pres w1a e
      split at h
      · rename_i w2 t2 hfw
        rw [hfw] at hful
        simp only [Prod.mk.injEq] at h
        obtain ⟨rfl, rfl, rfl⟩ := h
        have hen : w2.enabled = false := hful.2.2.2.1 _ rfl
        have hcalls : w2.disk_full_calls = w.disk_full_calls :=
          (hful.1.2.2.1).trans hw1.1.2.2.1
        refine ⟨hen, by simp [hcalls], ?_⟩
        intro m2
        unfold Writer.write_message_nts
        simp [hen]
      · rename_i e2 w2 t2 hfw
        rw [hfw] at hful
        simp only [Prod.mk.injEq] at h
        obtain ⟨rfl, rfl, rfl⟩ := h
        rcases List.mem_append.mp hmem with h1 | h2
        · have := hw1.2.2.2.2.2 _ h1
          simp [Ev.isCore] at this
        · rcases hful.2.1 _ h2 with h3 | h3
          · simp at h3
          · simp [Ev.isCore] at h3
      · rename_i w2 t2 hfw
        rw [hfw] at hful
        have hw2 := Writer.write_message_nts_pres w2 m
        split at h
        · rename_i r3 w3 t3 hwm2
          rw [hwm2] at hw2
          simp only [Prod.mk.injEq] at h
          obtain ⟨rfl, rfl, rfl⟩ := h
          rcases List.mem_append.mp hmem with h1 | h2
          · rcases List.mem_append.mp h1 with h3 | h4
            · have := hw1.2.2.2.2.2 _ h3
              simp [Ev.isCore] at this
            · rcases hful.2.1 _ h4 with h5 | h5
              · simp at h5
              · simp [Ev.isCore] at h5
          · have := hw2.2.2.2.2.2 _ h2
            simp [Ev.isCore] at this
  · intro w r w1 t h hmem
    unfold Writer.enable at h
    split at h
    · simp only [Prod.mk.injEq] at h
      obtain ⟨rfl, rfl, rfl⟩ := h
      simp at hmem
    · have hop := Writer.open_new_file_nts_pres w MIN_MCAP_SIZE
      split at h
      · rename_i w1a t1 how
        rw [how] at hop
        simp only [Prod.mk.injEq] at h
        obtain ⟨rfl, rfl, rfl⟩ := h
        have hc : w1a.disk_full_calls = w.disk_full_calls := hop.1.2.2.1
        exact ⟨rfl, by simp [hc]⟩
      · rename_i e w1a t1 how
        rw [how] at hop
        simp only [Prod.mk.injEq] at h
        obtain ⟨rfl, rfl, rfl⟩ := h
        have := hop.2.2 _ hmem
        simp [Ev.isCore] at this
      · rename_i w1a t1 how
        rw [how] at hop
        simp only [Prod.mk.injEq] at h
        obtain ⟨rfl, rfl, rfl⟩ := h
        have := hop.2.2 _ hmem
        simp [Ev.isCore] at this

/-- Witness for C1: in the concrete DiskFull encounter of `c1R`, the writer
ends disabled, the callback fired exactly once, and a subsequent message write
is a no-op. -/
theorem c1_disk_full_behaviour_witness :
    c1R.2.1.enabled = false ∧ c1R.2.1.disk_full_calls = c1W.disk_full_calls + 1 ∧
    c1R.2.1.write_message_nts ⟨3⟩ = (none, c1R.2.1, []) := by
  have h := c1_disk_full_behaviour.1 c1W ⟨1, 100⟩ c1R.1 c1R.2.1 c1R.2.2 rfl (by decide)
  exact ⟨h.1, h.2.1, h.2.2 ⟨3⟩⟩

/-- Counterexample to C1 as stated: a DiskFull encounter (in `enable`) after
which the writer is still enabled, and a subsequent write call is not a no-op
(it changes the state, firing the callback again). -/
theorem c1_counterexample :
    Ev.diskFullEv ∈ c1X.2.2 ∧ c1X.2.1.disk_full_calls = 1 ∧
    c1X.2.1.enabled = true ∧
    (c1X.2.1.write_message ⟨3⟩).2.1.disk_full_calls = 2 := by decide

/-- Claim C2: on every FileFull rollover the writer first closes the current
file, staging the dynamic-types attachment into it when `record_types` is set
and a payload is pending; it then opens a new file whose capacity is at least
the minimum MCAP size plus the triggering item's size; on that new file it
re-emits all cached schemas, then all cached channels, then re-makes the
pending dynamic-types-attachment reservation; and only then does it process
the triggering item (shown for a triggering message write). -/
theorem c2_rollover_protocol (w : Writer) (e : FullFileE) (w2 : Writer)
    (t2 : List Ev) (m : McapMessage) (st2 : SizeTracker)
    (hor : w.oracle = [])
    (hco : w.codec.is_open = true)
    (hftf : w.file_tracker.max_file_size = w.configuration.max_file_size)
    (hfts : w.file_tracker.max_size = w.configuration.max_size)
    (hfull : w.on_mcap_full_nts e = (none, w2, t2))
    (hen : w.enabled = true)
    (hres : w.size_tracker.reserve m.dataSize = .error e)
    (hres2 : w2.size_tracker.reserve m.dataSize = .ok st2) :
    w2.codec.files = w.codec.files ++ [w.codec.current ++ w.closeTail] ∧
    MCAP_BASE + METADATA_SIZE + w.size_tracker.attachment_pending +
      e.data_size_to_write ≤ w2.size_tracker.max_file_size ∧
    w2.codec.current = Record.metadataRec METADATA_SIZE ::
      (w.schemas.map Record.schemaRec ++ w.channels.map Record.channelRec) ∧
    (∀ q : Payload, w.record_types = true → w.dynamic_types_payload = some q →
      q.length ≤ w2.size_tracker.reserved) ∧
    (w.write_message m).1 = none ∧
    (w.write_message m).2.1.codec.current =
      (Record.metadataRec METADATA_SIZE ::
        (w.schemas.map Record.schemaRec ++ w.channels.map Record.channelRec)) ++
      [Record.messageRec m.dataSize] := by
  obtain ⟨k1, k2, k3, k4, k5, k6, k7, k8, k9, k10, k11, k12, k13, k14, k15,
          k16, k17⟩ := Writer.close_shape w hco hor
  unfold Writer.on_mcap_full_nts at hfull
  dsimp only at hfull
  split at hfull
  · simp at hfull
  · rename_i hneq
    split at hfull
    · simp at hfull
    · rename_i w3 t4 how
      simp only [Prod.mk.injEq] at hfull
      obtain ⟨h1, h2, h3⟩ := hfull
      subst h2
      subst h3
      obtain ⟨p1, p2, p3, p4, p5, p6, p7, p8, p9, p10, p11⟩ :=
        Writer.open_success _ _ _ _ (by exact k7) how
      have hsch : (w.close_current_file_nts).1.schemas = w.schemas := k12
      have hchn : (w.close_current_file_nts).1.channels = w.channels := k13
      have hpay : (w.close_current_file_nts).1.dynamic_types_payload
          = w.dynamic_types_payload := k14
      have hrt : (w.close_current_file_nts).1.record_types = w.record_types := k15
      have hcfg : (w.close_current_file_nts).1.configuration
          = w.configuration := k17
      rw [hsch, hchn] at p1
      have hfil : w3.codec.files = w.codec.files ++
          [w.codec.current ++ w.closeTail] := p2.trans k1
      have hcap : MCAP_BASE + METADATA_SIZE + w.size_tracker.attachment_pending +
          e.data_size_to_write ≤ w3.size_tracker.max_file_size := by
        have hmin : (w.close_current_file_nts).1.size_tracker.get_min_mcap_size +
            e.data_size_to_write
            = MCAP_BASE + METADATA_SIZE + w.size_tracker.attachment_pending +
              e.data_size_to_write := by
          unfold SizeTracker.get_min_mcap_size
          rw [k2]
        have hle2 := p4
        rw [k8, k9, hftf, hfts] at hle2
        have heq : w3.size_tracker.max_file_size =
            min w.configuration.max_file_size
              (w.configuration.max_size -
                (w.close_current_file_nts).1.file_tracker.get_total_size) := by
          refine p3.trans ?_
          rw [hcfg]
        rw [heq, ← hmin]
        exact hle2
      have hresv : ∀ q : Payload, w.record_types = true →
          w.dynamic_types_payload = some q →
          q.length ≤ w3.size_tracker.reserved := by
        intro q hq1 hq2
        exact p5 q (hrt.trans hq1) (hpay.trans hq2)
      have hco2 : w3.codec.is_open = true := p6
      have hor2 : w3.oracle = [] := p11
      have hwm : w.write_message_nts m
          = (some e, w, [Ev.reserveFailEv m.dataSize]) := by
        unfold Writer.write_message_nts
        rw [hen, hres]
        simp
      have hfull2 : w.on_mcap_full_nts e =
          (none, ({ w3 with enabled := true } : Writer),
           Ev.rolloverEv :: ((w.close_current_file_nts).2 ++ t4)) := by
        unfold Writer.on_mcap_full_nts
        dsimp only
        split
        · rename_i hc
          exact absurd hc hneq
        · rw [how]
      have hen2 : (({ w3 with enabled := true } : Writer)).enabled = true := rfl
      have hres2b : (({ w3 with enabled := true } : Writer)).size_tracker.reserve
          m.dataSize = .ok st2 := hres2
      have hcw := Writer.codec_write_ok
        ({ w3 with enabled := true, size_tracker := st2 } : Writer)
        (Record.messageRec m.dataSize) (by exact hco2) (by exact hor2)
      have hsplit : (({ w3 with enabled := true, size_tracker := st2 } : Writer)).codec_write
          (Record.messageRec m.dataSize)
          = (((({ w3 with enabled := true, size_tracker := st2 } : Writer)).codec_write
              (Record.messageRec m.dataSize)).1, true) := by
        have hq : (({ w3 with enabled := true, size_tracker := st2 } : Writer)).codec_write
            (Record.messageRec m.dataSize)
            = (((({ w3 with enabled := true, size_tracker := st2 } : Writer)).codec_write
                (Record.messageRec m.dataSize)).1,
               ((({ w3 with enabled := true, size_tracker := st2 } : Writer)).codec_write
                (Record.messageRec m.dataSize)).2) := rfl
        rw [hcw.1] at hq
        exact hq
      have hwm2 : ((({ w3 with enabled := true } : Writer)).write_message_nts m).2.1.codec.current
          = w3.codec.current ++ [Record.messageRec m.dataSize] ∧
          ((({ w3 with enabled := true } : Writer)).write_message_nts m).1 = none := by
        unfold Writer.write_message_nts
        rw [hen2]
        rw [hres2b]
        simp only [Bool.not_true]
        rw [hsplit]
        exact ⟨hcw.2.1, rfl⟩
      have hfin : w.write_message m =
          (((({ w3 with enabled := true } : Writer)).write_message_nts m).1.map
            WErr.fullFile,
           ((({ w3 with enabled := true } : Writer)).write_message_nts m).2.1,
           [Ev.reserveFailEv m.dataSize] ++
             (Ev.rolloverEv :: ((w.close_current_file_nts).2 ++ t4)) ++
             ((({ w3 with enabled := true } : Writer)).write_message_nts m).2.2) := by
        unfold Writer.write_message
        rw [hwm]
        dsimp only
        try rw [hfull2]
      refine ⟨hfil, hcap, p1, hresv, ?_, ?_⟩
      · rw [hfin]
        simp [hwm2.2]
      · rw [hfin]
        dsimp only
        rw [hwm2.1, p1]

/-- Witness for C2: the concrete rollover of `c2F` re-emits the version
metadata, the cached schema and the cached channel on the new file, and the
triggering message is appended only after them. -/
theorem c2_rollover_protocol_witness :
    c2F.2.1.codec.current = Record.metadataRec METADATA_SIZE ::
      (c2W.schemas.map Record.schemaRec ++ c2W.channels.map Record.channelRec) ∧
    (c2W.write_message ⟨30⟩).1 = none ∧
    (c2W.write_message ⟨30⟩).2.1.codec.current =
      (Record.metadataRec METADATA_SIZE ::
        (c2W.schemas.map Record.schemaRec ++ c2W.channels.map Record.channelRec)) ++
      [Record.messageRec 30] := by
  have h := c2_rollover_protocol c2W ⟨30⟩ c2F.2.1 c2F.2.2 ⟨30⟩ c2ST rfl rfl rfl rfl
    rfl rfl rfl rfl
  exact ⟨h.2.2.1, h.2.2.2.2.1, h.2.2.2.2.2⟩

/-- Counterexample to C5 as stated: with `record_types` set but no staged
payload (no `update_dynamic_types` call ever happened), the closed file
contains no attachment record. -/
theorem c5_counterexample :
    c5X.record_types = true ∧
    c5X.codec.files = [[Record.metadataRec METADATA_SIZE]] ∧
    ¬ (∀ f ∈ c5X.codec.files, (f.getLast?.map Record.isAttachment) = some true) := by
  decide

/-- Claim C5 (amended): when `record_types` is set and a dynamic-types payload
has been staged, every file closed by the writer (with the codec open and the
codec write succeeding) ends with the dynamic-types attachment carrying the
staged payload. -/
theorem c5_attachment_on_close (w : Writer) (p : Payload)
    (hrt : w.record_types = true) (hp : w.dynamic_types_payload = some p)
    (hco : w.codec.is_open = true) (hor : w.oracle = []) :
    (w.close_current_file_nts).1.codec.files
      = w.codec.files ++ [w.codec.current ++ [Record.attachmentRec p]] ∧
    (w.close_current_file_nts).1.codec.files.getLast?
      = some (w.codec.current ++ [Record.attachmentRec p]) ∧
    (w.codec.current ++ [Record.attachmentRec p]).getLast?
      = some (Record.attachmentRec p) := by
  have hk := Writer.close_shape w hco hor
  have htl : w.closeTail = [Record.attachmentRec p] := by
    unfold Writer.closeTail
    rw [hrt, hp]
  have h1 : (w.close_current_file_nts).1.codec.files
      = w.codec.files ++ [w.codec.current ++ [Record.attachmentRec p]] := by
    rw [hk.1, htl]
  refine ⟨h1, ?_, ?_⟩
  · rw [h1]
    exact List.getLast?_concat _
  · exact List.getLast?_concat _

/-- Witness for the amended C5 at a concrete staged writer. -/
theorem c5_attachment_on_close_witness :
    (c5W.close_current_file_nts).1.codec.files
      = c5W.codec.files ++ [c5W.codec.current ++ [Record.attachmentRec ⟨5, 10⟩]] := by
  exact (c5_attachment_on_close c5W ⟨5, 10⟩ rfl rfl rfl rfl).1

/-- Claim C7: `disable` clears the cached channels and keeps the cached
schemas; `disable` and `enable` are idempotent; and after `disable` followed by
a successful `enable` (one that does not run into DiskFull), the new file
re-emits the cached schemas and no channel records. -/
theorem c7_disable_enable :
    (∀ w : Writer, w.enabled = true →
      (w.disable).1.channels = [] ∧ (w.disable).1.schemas = w.schemas) ∧
    (∀ w : Writer, ((w.disable).1).disable = ((w.disable).1, [])) ∧
    (∀ w : Writer, w.enabled = true → w.enable = (none, w, [])) ∧
    (∀ (w w2 : Writer) (t : List Ev), w.enabled = true → w.oracle = [] →
      ((w.disable).1).enable = (none, w2, t) → Ev.diskFullEv ∉ t →
      w2.codec.current = Record.metadataRec METADATA_SIZE ::
        w.schemas.map Record.schemaRec) := by
  have hdis : ∀ w : Writer, w.enabled = true →
      (w.disable).1 = { (w.close_current_file_nts).1 with
        channels := [], enabled := false } := by
    intro w hen
    unfold Writer.disable
    rw [hen]
    simp
  refine ⟨?_, ?_, ?_, ?_⟩
  · intro w hen
    rw [hdis w hen]
    exact ⟨rfl, (Writer.close_current_file_nts_pres w).2.2.1⟩
  · intro w
    by_cases hen : w.enabled = true
    · rw [hdis w hen]
      unfold Writer.disable
      simp
    · have hwd : w.disable = (w, []) := by
        unfold Writer.disable
        simp [hen]
      rw [hwd]
      unfold Writer.disable
      simp [hen]
  · intro w hen
    unfold Writer.enable
    rw [hen]
    simp
  · intro w w2 t hen hor h hdf
    have hwd := hdis w hen
    have hwden : (w.disable).1.enabled = false := by
      rw [hwd]
    have hwdor : (w.disable).1.oracle = [] := by
      rw [hwd]
      exact (Writer.close_current_file_nts_pres w).1.2.2.2.2 hor
    have hwdsch : (w.disable).1.schemas = w.schemas := by
      rw [hwd]
      exact (Writer.close_current_file_nts_pres w).2.2.1
    have hwdchn : (w.disable).1.channels = [] := by
      rw [hwd]
    unfold Writer.enable at h
    rw [hwden] at h
    simp only [Bool.false_eq_true, if_false] at h
    split at h
    · rename_i w1 t1 how
      simp only [Prod.mk.injEq] at h
      obtain ⟨rfl, rfl⟩ := h.2
      simp at hdf
    · simp at h
    · rename_i w1 t1 how
      simp only [Prod.mk.injEq] at h
      obtain ⟨rfl, rfl⟩ := h.2
      have hp := Writer.open_success _ _ _ _ hwdor how
      rw [hp.1, hwdsch, hwdchn]
      simp

/-- Counterexample to C3 as stated: an Attachment write invokes the codec (and
commits on success) without performing any reservation of its own — its trace
holds no reservation event at all. -/
theorem c3_counterexample :
    (c5W.write_attachment_item_nts ⟨5, 10⟩).2
      = [Ev.codecEv true, Ev.commitEv 10] ∧
    ((c5W.write_attachment_item_nts ⟨5, 10⟩).2.filter Ev.isReserveEv) = [] ∧
    Ev.codecEv true ∈ (c5W.write_attachment_item_nts ⟨5, 10⟩).2 := by
  decide

/-- Claim C3 (amended): Message and Metadata writes reserve the item's bytes in
the SizeTracker before invoking the codec, and on a codec error they return
with the committed written size unchanged and the writer still enabled;
Attachment writes make no reservation of their own (the bytes were reserved
when the attachment was staged) and likewise leave the committed size and the
enabled flag unchanged on codec error. -/
theorem c3_reserve_then_commit :
    (∀ (w : Writer) (m : McapMessage) (r : Option FullFileE) (w' : Writer)
        (t : List Ev), w.enabled = true → w.write_message_nts m = (r, w', t) →
      (t.head? = some (Ev.reserveEv m.dataSize) ∨
       t.head? = some (Ev.reserveFailEv m.dataSize)) ∧
      (Ev.codecEv false ∈ t → w'.size_tracker.written = w.size_tracker.written ∧
        w'.enabled = w.enabled)) ∧
    (∀ (w : Writer) (md : MetadataItem) (r : Option FullFileE) (w' : Writer)
        (t : List Ev), w.write_metadata_item_nts md = (r, w', t) →
      (t.head? = some (Ev.reserveEv md.size) ∨
       t.head? = some (Ev.reserveFailEv md.size)) ∧
      (Ev.codecEv false ∈ t → w'.size_tracker.written = w.size_tracker.written ∧
        w'.enabled = w.enabled)) ∧
    (∀ (w : Writer) (p : Payload) (w' : Writer) (t : List Ev),
        w.write_attachment_item_nts p = (w', t) →
      (t.filter Ev.isReserveEv) = [] ∧
      (Ev.codecEv false ∈ t → w'.size_tracker.written = w.size_tracker.written ∧
        w'.enabled = w.enabled)) := by
  refine ⟨?_, ?_, ?_⟩
  · intro w m r w' t hen h
    unfold Writer.write_message_nts at h
    dsimp only at h
    split at h
    · rename_i hnen
      exact absurd hen hnen
    split at h
    · rename_i e hres
      simp only [Prod.mk.injEq] at h
      obtain ⟨rfl, rfl, rfl⟩ := h
      refine ⟨Or.inr rfl, ?_⟩
      intro hmem
      simp at hmem
    · rename_i st hres
      have hcp := Writer.codec_write_pres { w with size_tracker := st }
        (Record.messageRec m.dataSize)
      split at h
      · rename_i w2 hcw
        rw [hcw] at hcp
        simp only [Prod.mk.injEq] at h
        obtain ⟨rfl, rfl, rfl⟩ := h
        refine ⟨Or.inl rfl, ?_⟩
        intro _
        have hst : w2.size_tracker = { w.size_tracker with
            reserved := w.size_tracker.reserved + m.dataSize } := by
          have h6 := hcp.2.2.2.2.1
          unfold SizeTracker.reserve at hres
          split at hres
          · simp at hres
          · simp only [Except.ok.injEq] at hres
            rw [h6, ← hres]
        constructor
        · rw [hst]
        · exact hcp.2.1
      · rename_i w2 hcw
        rw [hcw] at hcp
        simp only [Prod.mk.injEq] at h
        obtain ⟨rfl, rfl, rfl⟩ := h
        refine ⟨Or.inl rfl, ?_⟩
        intro hmem
        simp at hmem
  · intro w md r w' t h
    unfold Writer.write_metadata_item_nts at h
    dsimp only at h
    split at h
    · rename_i e hres
      simp only [Prod.mk.injEq] at h
      obtain ⟨rfl, rfl, rfl⟩ := h
      refine ⟨Or.inr rfl, ?_⟩
      intro hmem
      simp at hmem
    · rename_i st hres
      have hcp := Writer.codec_write_pres { w with size_tracker := st }
        (Record.metadataRec md.size)
      split at h
      · rename_i w2 hcw
        rw [hcw] at hcp
        simp only [Prod.mk.injEq] at h
        obtain ⟨rfl, rfl, rfl⟩ := h
        refine ⟨Or.inl rfl, ?_⟩
        intro _
        have hst : w2.size_tracker = { w.size_tracker with
            reserved := w.size_tracker.reserved + md.size } := by
          have h6 := hcp.2.2.2.2.1
          unfold SizeTracker.reserve at hres
          split at hres
          · simp at hres
          · simp only [Except.ok.injEq] at hres
            rw [h6, ← hres]
        constructor
        · rw [hst]
        · exact hcp.2.1
      · rename_i w2 hcw
        rw [hcw] at hcp
        simp only [Prod.mk.injEq] at h
        obtain ⟨rfl, rfl, rfl⟩ := h
        refine ⟨Or.inl rfl, ?_⟩
        intro hmem
        simp at hmem
  · intro w p w' t h
    unfold Writer.write_attachment_item_nts at h
    have hcp := Writer.codec_write_pres w (Record.attachmentRec p)
    split at h
    · rename_i w2 hcw
      rw [hcw] at hcp
      simp only [Prod.mk.injEq] at h
      obtain ⟨rfl, rfl⟩ := h
      refine ⟨by simp [Ev.isReserveEv], ?_⟩
      intro _
      exact ⟨congrArg SizeTracker.written hcp.2.2.2.2.1, hcp.2.1⟩
    · rename_i w2 hcw
      rw [hcw] at hcp
      simp only [Prod.mk.injEq] at h
      obtain ⟨rfl, rfl⟩ := h
      refine ⟨by simp [Ev.isReserveEv], ?_⟩
      intro hmem
      simp at hmem

/-- Witness for the amended C3: a concrete message write on an enabled writer
reserves first; a concrete attachment write has no reservation event. -/
theorem c3_reserve_then_commit_witness :
    ((c5W.write_message_nts ⟨3⟩).2.2.head? = some (Ev.reserveEv 3) ∨
     (c5W.write_message_nts ⟨3⟩).2.2.head? = some (Ev.reserveFailEv 3)) ∧
    ((c5W.write_attachment_item_nts ⟨5, 10⟩).2.filter Ev.isReserveEv) = [] := by
  have h1 := c3_reserve_then_commit.1 c5W ⟨3⟩ (c5W.write_message_nts ⟨3⟩).1
    (c5W.write_message_nts ⟨3⟩).2.1 (c5W.write_message_nts ⟨3⟩).2.2 rfl rfl
  have h3 := c3_reserve_then_commit.2.2 c5W ⟨5, 10⟩
    (c5W.write_attachment_item_nts ⟨5, 10⟩).1
    (c5W.write_attachment_item_nts ⟨5, 10⟩).2 rfl
  exact ⟨h1.1, h3.1⟩

/-- Claim C6: `update_dynamic_types` replaces the staged payload (whenever it
returns normally) and reserves the delta between the new and previous lengths
against the current file's budget; when the reservation raises FileFull it
rolls the file over and retries the reservation exactly once (never more than
two reservation attempts, and exactly two when a rollover happens); when
DiskFull arises, it invokes the `on_disk_full` callback. -/
theorem c6_update_dynamic_types :
    (∀ (w : Writer) (p : Payload) (r : Option WErr) (w1 : Writer) (t : List Ev),
      w.update_dynamic_types p = (r, w1, t) → r = none →
        w1.dynamic_types_payload = some p) ∧
    (∀ (w : Writer) (p : Payload) (st : SizeTracker),
      w.size_tracker.attachment_to_write p.length w.staged_length = .ok st →
      w.update_dynamic_types p
        = (none, Writer.update_finish_step { w with size_tracker := st } p,
           [Ev.attachReserveEv true]) ∧
      st.reserved = w.size_tracker.reserved - w.staged_length + p.length) ∧
    (∀ (w : Writer) (p : Payload) (r : Option WErr) (w1 : Writer) (t : List Ev),
      w.update_dynamic_types p = (r, w1, t) →
        (t.filter Ev.isAttachEv).length ≤ 2) ∧
    (∀ (w : Writer) (p : Payload) (r : Option WErr) (w1 : Writer) (t : List Ev)
        (e : FullFileE) (w2 : Writer) (t2 : List Ev),
      w.update_dynamic_types p = (r, w1, t) →
      w.size_tracker.attachment_to_write p.length w.staged_length = .error e →
      w.on_mcap_full_nts e = (none, w2, t2) →
      Ev.rolloverEv ∈ t ∧ (t.filter Ev.isAttachEv).length = 2) ∧
    (∀ (w : Writer) (p : Payload) (r : Option WErr) (w1 : Writer) (t : List Ev),
      w.update_dynamic_types p = (r, w1, t) → Ev.diskFullEv ∈ t →
        w1.disk_full_calls = w.disk_full_calls + 1) := by
  have hstep : ∀ (w : Writer) (p : Payload),
      w.update_reserve_step p =
        (match w.size_tracker.attachment_to_write p.length w.staged_length with
         | .error e => (some e, w, [Ev.attachReserveEv false])
         | .ok st => (none, { w with size_tracker := st },
            [Ev.attachReserveEv true])) := by
    intro w p
    unfold Writer.update_reserve_step
    rfl
  have hfulAtt : ∀ (w : Writer) (e : FullFileE),
      ((w.on_mcap_full_nts e).2.2.filter Ev.isAttachEv) = [] := by
    intro w e
    rw [List.filter_eq_nil_iff]
    intro a ha
    rcases (Writer.on_mcap_full_nts_pres w e).2.1 a ha with h1 | h1
    · rw [h1]
      simp [Ev.isAttachEv]
    · cases a <;> simp_all [Ev.isCore, Ev.isAttachEv]
  refine ⟨?_, ?_, ?_, ?_, ?_⟩
  · intro w p r w1 t h hr
    subst hr
    unfold Writer.update_dynamic_types at h
    split at h
    · simp only [Prod.mk.injEq] at h
      obtain ⟨rfl, rfl⟩ := h.2
      rfl
    · split at h
      · simp only [Prod.mk.injEq] at h
        obtain ⟨rfl, rfl⟩ := h.2
        rfl
      · simp at h
      · split at h
        · simp only [Prod.mk.injEq] at h
          obtain ⟨rfl, rfl⟩ := h.2
          rfl
        · simp at h
  · intro w p st hat
    constructor
    · unfold Writer.update_dynamic_types
      rw [hstep w p, hat]
    · unfold SizeTracker.attachment_to_write at hat
      split at hat
      · simp at hat
      · simp only [Except.ok.injEq] at hat
        rw [← hat]
  · intro w p r w1 t h
    unfold Writer.update_dynamic_types at h
    cases hat0 : w.size_tracker.attachment_to_write p.length w.staged_length with
    | ok st =>
      have hrs : w.update_reserve_step p = (none, { w with size_tracker := st },
          [Ev.attachReserveEv true]) := by
        rw [hstep w p, hat0]
      rw [hrs] at h
      dsimp only at h
      simp only [Prod.mk.injEq] at h
      obtain ⟨rfl, rfl, rfl⟩ := h
      simp [Ev.isAttachEv]
    | error e =>
      have hrs : w.update_reserve_step p
          = (some e, w, [Ev.attachReserveEv false]) := by
        rw [hstep w p, hat0]
      rw [hrs] at h
      dsimp only at h
      split at h
      · rename_i w2 t2 hful
        simp only [Prod.mk.injEq] at h
        obtain ⟨rfl, rfl, rfl⟩ := h
        have hf0 : t2.filter Ev.isAttachEv = [] := by
          have h0 := hfulAtt w e
          rw [hful] at h0
          exact h0
        simp [List.filter_append, Ev.isAttachEv, hf0]
      · rename_i e2 w2 t2 hful
        simp only [Prod.mk.injEq] at h
        obtain ⟨rfl, rfl, rfl⟩ := h
        have hf0 : t2.filter Ev.isAttachEv = [] := by
          have h0 := hfulAtt w e
          rw [hful] at h0
          exact h0
        simp [List.filter_append, Ev.isAttachEv, hf0]
      · rename_i w2 t2 hful
        have hf0 : t2.filter Ev.isAttachEv = [] := by
          have h0 := hfulAtt w e
          rw [hful] at h0
          exact h0
        cases hat2 : w2.size_tracker.attachment_to_write p.length w2.staged_length with
        | ok st2 =>
          have hrs2 : w2.update_reserve_step p
              = (none, { w2 with size_tracker := st2 },
                 [Ev.attachReserveEv true]) := by
            rw [hstep w2 p, hat2]
          rw [hrs2] at h
          dsimp only at h
          simp only [Prod.mk.injEq] at h
          obtain ⟨rfl, rfl, rfl⟩ := h
          simp [List.filter_append, Ev.isAttachEv, hf0]
        | error e2 =>
          have hrs2 : w2.update_reserve_step p
              = (some e2, w2, [Ev.attachReserveEv false]) := by
            rw [hstep w2 p, hat2]
          rw [hrs2] at h
          dsimp only at h
          simp only [Prod.mk.injEq] at h
          obtain ⟨rfl, rfl, rfl⟩ := h
          simp [List.filter_append, Ev.isAttachEv, hf0]
  · intro w p r w1 t e w2 t2 h hat hful
    unfold Writer.update_dynamic_types at h
    have hrs : w.update_reserve_step p
        = (some e, w, [Ev.attachReserveEv false]) := by
      rw [hstep w p, hat]
    rw [hrs] at h
    dsimp only at h
    rw [hful] at h
    dsimp only at h
    have hmem2 : Ev.rolloverEv ∈ t2 := by
      have h0 := (Writer.on_mcap_full_nts_pres w e).2.2.2.2
      rw [hful] at h0
      exact h0
    have hf0 : t2.filter Ev.isAttachEv = [] := by
      have h0 := hfulAtt w e
      rw [hful] at h0
      exact h0
    cases hat2 : w2.size_tracker.attachment_to_write p.length w2.staged_length with
    | ok st2 =>
      have hrs2 : w2.update_reserve_step p
          = (none, { w2 with size_tracker := st2 }, [Ev.attachReserveEv true]) := by
        rw [hstep w2 p, hat2]
      rw [hrs2] at h
      dsimp only at h
      simp only [Prod.mk.injEq] at h
      obtain ⟨rfl, rfl, rfl⟩ := h
      refine ⟨by simp [hmem2], ?_⟩
      simp [List.filter_append, Ev.isAttachEv, hf0]
    | error e2 =>
      have hrs2 : w2.update_reserve_step p
          = (some e2, w2, [Ev.attachReserveEv false]) := by
        rw [hstep w2 p, hat2]
      rw [hrs2] at h
      dsimp only at h
      simp only [Prod.mk.injEq] at h
      obtain ⟨rfl, rfl, rfl⟩ := h
      refine ⟨by simp [hmem2], ?_⟩
      simp [List.filter_append, Ev.isAttachEv, hf0]
  · intro w p r w1 t h hmem
    exact (update_diskFull_lemma w p r w1 t h hmem).2.1

/-- Witness for C6: a concrete `update_dynamic_types` whose reservation
succeeds immediately replaces the payload and reserves the full length. -/
theorem c6_update_dynamic_types_witness :
    (c6W.update_dynamic_types ⟨9, 25⟩).2.1.dynamic_types_payload = some ⟨9, 25⟩ ∧
    c6ST.reserved = c6W.size_tracker.reserved - c6W.staged_length + 25 := by
  have h1 := c6_update_dynamic_types.1 c6W ⟨9, 25⟩
    (c6W.update_dynamic_types ⟨9, 25⟩).1 (c6W.update_dynamic_types ⟨9, 25⟩).2.1
    (c6W.update_dynamic_types ⟨9, 25⟩).2.2 rfl rfl
  have h2 := c6_update_dynamic_types.2.1 c6W ⟨9, 25⟩ c6ST rfl
  exact ⟨h1, h2.2⟩

/-- Counterexample to C9 as stated: when the post-rollover retry of the
reservation itself raises FileFull, `update_dynamic_types` exits by exception
before lines 149-150, so the staged payload is NOT replaced by the caller's
argument. -/
theorem c9_counterexample :
    (c9X.update_dynamic_types ⟨1, 100⟩).1 = some (WErr.fullFile ⟨100⟩) ∧
    (c9X.update_dynamic_types ⟨1, 100⟩).2.1.dynamic_types_payload
      = some ⟨0, 0⟩ ∧
    some (⟨0, 0⟩ : Payload) ≠ some (⟨1, 100⟩ : Payload) := by
  decide

/-- Claim C9 (amended): after every call to `update_dynamic_types` that
terminates normally — including the FileFull-then-DiskFull path — the staged
payload is replaced by the caller's argument and, while a file is open, the
FileTracker's current file size equals the potential MCAP size; when the call
exits by an escaping exception (the rollover or the retried reservation raising
FileFull), the staged payload is left unchanged. -/
theorem c9_update_not_atomic :
    (∀ (w : Writer) (p : Payload) (r : Option WErr) (w1 : Writer) (t : List Ev),
      w.update_dynamic_types p = (r, w1, t) → r = none →
        w1.dynamic_types_payload = some p ∧
        (w1.file_tracker.is_open = true →
          w1.file_tracker.current_size
            = w1.size_tracker.get_potential_mcap_size)) ∧
    (∀ (w : Writer) (p : Payload) (r : Option WErr) (w1 : Writer) (t : List Ev),
      w.update_dynamic_types p = (r, w1, t) → r ≠ none →
        w1.dynamic_types_payload = w.dynamic_types_payload) := by
  have hfin : ∀ (v : Writer) (p : Payload),
      (v.update_finish_step p).dynamic_types_payload = some p ∧
      ((v.update_finish_step p).file_tracker.is_open = true →
        (v.update_finish_step p).file_tracker.current_size
          = (v.update_finish_step p).size_tracker.get_potential_mcap_size) := by
    intro v p
    unfold Writer.update_finish_step
    refine ⟨rfl, ?_⟩
    unfold FileTracker.set_current_file_size
    split
    · intro _
      rfl
    · rename_i hno
      intro hyes
      exact absurd hyes hno
  refine ⟨?_, ?_⟩
  · intro w p r w1 t h hr
    subst hr
    unfold Writer.update_dynamic_types at h
    split at h
    · simp only [Prod.mk.injEq] at h
      obtain ⟨rfl, rfl⟩ := h.2
      exact hfin _ p
    · split at h
      · simp only [Prod.mk.injEq] at h
        obtain ⟨rfl, rfl⟩ := h.2
        exact hfin _ p
      · simp at h
      · split at h
        · simp only [Prod.mk.injEq] at h
          obtain ⟨rfl, rfl⟩ := h.2
          exact hfin _ p
        · simp at h
  · intro w p r w1 t h hr
    unfold Writer.update_dynamic_types at h
    have hrs := Writer.update_reserve_step_pres w p
    split at h
    · simp only [Prod.mk.injEq] at h
      obtain ⟨rfl, rfl, rfl⟩ := h
      exact absurd rfl hr
    · rename_i e w1a t1 hstep
      rw [hstep] at hrs
      have hful := Writer.on_mcap_full_nts_pres w1a e
      split at h
      · simp only [Prod.mk.injEq] at h
        obtain ⟨rfl, rfl, rfl⟩ := h
        exact absurd rfl hr
      · rename_i e2 w2 t2 hfw
        rw [hfw] at hful
        simp only [Prod.mk.injEq] at h
        obtain ⟨rfl, rfl, rfl⟩ := h
        exact (hful.1.2.2.2.1).trans hrs.1.2.2.2.1
      · rename_i w2 t2 hfw
        rw [hfw] at hful
        have hrs2 := Writer.update_reserve_step_pres w2 p
        split at h
        · simp only [Prod.mk.injEq] at h
          obtain ⟨rfl, rfl, rfl⟩ := h
          exact absurd rfl hr
        · rename_i e3 w3 t3 hstep2
          rw [hstep2] at hrs2
          simp only [Prod.mk.injEq] at h
          obtain ⟨rfl, rfl, rfl⟩ := h
          exact (hrs2.1.2.2.2.1.trans hful.1.2.2.2.1).trans hrs.1.2.2.2.1
  

/-- Witness for the amended C9 at a concrete normally-returning call. -/
theorem c9_update_not_atomic_witness :
    (c6W.update_dynamic_types ⟨9, 25⟩).2.1.dynamic_types_payload = some ⟨9, 25⟩ ∧
    ((c9X.update_dynamic_types ⟨1, 100⟩).1 ≠ none →
      (c9X.update_dynamic_types ⟨1, 100⟩).2.1.dynamic_types_payload
        = c9X.dynamic_types_payload) := by
  have h1 := c9_update_not_atomic.1 c6W ⟨9, 25⟩
    (c6W.update_dynamic_types ⟨9, 25⟩).1 (c6W.update_dynamic_types ⟨9, 25⟩).2.1
    (c6W.update_dynamic_types ⟨9, 25⟩).2.2 rfl rfl
  have h2 := c9_update_not_atomic.2 c9X ⟨1, 100⟩
    (c9X.update_dynamic_types ⟨1, 100⟩).1 (c9X.update_dynamic_types ⟨1, 100⟩).2.1
    (c9X.update_dynamic_types ⟨1, 100⟩).2.2 rfl
  exact ⟨h1.1, fun hne => h2 hne⟩

/-- Claim C10: after a successful message write the FileTracker's current file
size is the potential size (committed plus reserved bytes), while a close
records the committed written bytes only — the staged attachment's bytes are
committed by the close itself, and outstanding reservations (for example after
a codec write error) are excluded from the closed file's size and hence from
the cumulative total. -/
theorem c10_potential_vs_written :
    (∀ (w : Writer) (m : McapMessage) (r : Option FullFileE) (w' : Writer)
        (t : List Ev), w.write_message_nts m = (r, w', t) →
      Ev.codecEv true ∈ t →
      (w'.file_tracker.is_open = true →
        w'.file_tracker.current_size
          = w'.size_tracker.written + w'.size_tracker.reserved)) ∧
    (∀ w : Writer, w.codec.is_open = true → w.oracle = [] →
      w.file_tracker.is_open = true →
      (w.close_current_file_nts).1.file_tracker.closed_sizes
        = w.file_tracker.closed_sizes ++
          [w.size_tracker.written + w.closeAdd]) ∧
    (∀ w : Writer, w.record_types = false → w.closeAdd = 0) ∧
    (∀ w : Writer, w.file_tracker.get_total_size = w.file_tracker.closed_sizes.sum) := by
  refine ⟨?_, ?_, ?_, fun w => rfl⟩
  · intro w m r w' t h hmem
    unfold Writer.write_message_nts at h
    dsimp only at h
    split at h
    · simp only [Prod.mk.injEq] at h
      obtain ⟨rfl, rfl, rfl⟩ := h
      simp at hmem
    · split at h
      · simp only [Prod.mk.injEq] at h
        obtain ⟨rfl, rfl, rfl⟩ := h
        simp at hmem
      · rename_i st hres
        split at h
        · simp only [Prod.mk.injEq] at h
          obtain ⟨rfl, rfl, rfl⟩ := h
          simp at hmem
        · rename_i w2 hcw
          simp only [Prod.mk.injEq] at h
          obtain ⟨rfl, rfl, rfl⟩ := h
          intro hopen
          unfold FileTracker.set_current_file_size at hopen ⊢
          split at hopen
          · rename_i hfo
            rw [if_pos hfo]
            rfl
          · rename_i hfo
            exact absurd hopen hfo
  · intro w hco hor hopen
    exact (Writer.close_shape w hco hor).2.2.2.2.2.2.2.2.2.1 hopen
  · intro w hrt
    unfold Writer.closeAdd
    split
    · rename_i hrt2 hp
      rw [hrt] at hrt2
      cases hrt2
    · rfl

/-- Witness for C10 at a concrete writer: a successful message write records
the potential size, and the close of a file with a stranded reservation (codec
error on a previous write) records only the committed bytes. -/
theorem c10_potential_vs_written_witness :
    ((c10W.write_message_nts ⟨5⟩).2.1.file_tracker.is_open = true →
      (c10W.write_message_nts ⟨5⟩).2.1.file_tracker.current_size
        = (c10W.write_message_nts ⟨5⟩).2.1.size_tracker.written +
          (c10W.write_message_nts ⟨5⟩).2.1.size_tracker.reserved) ∧
    (c10W.close_current_file_nts).1.file_tracker.closed_sizes
      = c10W.file_tracker.closed_sizes ++
        [c10W.size_tracker.written + c10W.closeAdd] := by
  have h1 := c10_potential_vs_written.1 c10W ⟨5⟩
    (c10W.write_message_nts ⟨5⟩).1 (c10W.write_message_nts ⟨5⟩).2.1
    (c10W.write_message_nts ⟨5⟩).2.2 rfl (by decide)
  have h2 := c10_potential_vs_written.2.1 c10W rfl rfl rfl
  exact ⟨h1, h2⟩

/-- Claim C4, evaluated at the failing input: a run in which the per-file bound
holds but the cumulative budget is violated — the sum of the two emitted files'
sizes (82 + 52 = 134 bytes, matching the record bytes actually written by the
codec) exceeds `max_size = 124`.  The run drives the writer through a rollover
whose schema re-emission overflows the new, smaller file (contradicting the
source comment that those writes "should never fail"), after which the next
close commits the staged attachment without a reservation. -/
theorem c4_budget_violation :
    c4R.configuration.max_size = 124 ∧
    c4R.file_tracker.closed_sizes = [82, 52] ∧
    ¬ (c4R.file_tracker.get_total_size ≤ c4R.configuration.max_size) ∧
    (∀ s ∈ c4R.file_tracker.closed_sizes, s ≤ c4R.configuration.max_file_size) ∧
    c4R.codec.files.map List.length = [4, 3] := by
  decide

/-- Witness for C7 at a concrete enabled writer with one cached schema. -/
theorem c7_disable_enable_witness :
    (c7W.disable).1.channels = [] ∧ (c7W.disable).1.schemas = c7W.schemas ∧
    c7W.enable = (none, c7W, []) ∧
    c7E.2.1.codec.current = Record.metadataRec METADATA_SIZE ::
      c7W.schemas.map Record.schemaRec := by
  have h := c7_disable_enable
  refine ⟨(h.1 c7W rfl).1, (h.1 c7W rfl).2, h.2.2.1 c7W rfl, ?_⟩
  exact h.2.2.2 c7W c7E.2.1 c7E.2.2 rfl rfl rfl (by decide)

/-- Claim C8 (spec-modelled): a message delivered while the handler is STOPPED
is discarded wholesale — the handler state (buffers, dumped samples, sequence
number) is completely unchanged and no sequence number is assigned — while
every accepted message (in RUNNING or PAUSED) receives the next unique
sequence number. -/
theorem c8_stopped_drops :
    (∀ (h : McapHandler) (k : Bool), h.state = .STOPPED →
      h.add_data k = (h, none)) ∧
    (∀ (h h2 : McapHandler) (k : Bool) (n : Nat),
      h.add_data k = (h2, some n) →
        n = h.unique_sequence_number + 1 ∧ h2.unique_sequence_number = n) := by
  constructor
  · intro h k hst
    unfold McapHandler.add_data
    rw [hst]
  · intro h h2 k n hcall
    unfold McapHandler.add_data at hcall
    split at hcall
    · simp at hcall
    · dsimp only at hcall
      repeat' split at hcall
      all_goals
        first
          | (simp only [Prod.mk.injEq, Option.some.injEq] at hcall
             obtain ⟨rfl, rfl⟩ := hcall
             exact ⟨rfl, rfl⟩)
          | simp at hcall
    · dsimp only at hcall
      repeat' split at hcall
      all_goals
        first
          | (simp only [Prod.mk.injEq, Option.some.injEq] at hcall
             obtain ⟨rfl, rfl⟩ := hcall
             exact ⟨rfl, rfl⟩)
          | simp at hcall

/-- Witness for C8: a concrete STOPPED delivery changes nothing, and a
concrete RUNNING delivery is assigned sequence number 8. -/
theorem c8_stopped_drops_witness :
    c8H.add_data true = (c8H, none) ∧
    ((c8R.add_data true).2 = some 8 ∧
      (c8R.add_data true).1.unique_sequence_number = 8) := by
  have h1 := c8_stopped_drops.1 c8H true rfl
  have h2 := c8_stopped_drops.2 c8R (c8R.add_data true).1 true 8 (by decide)
  exact ⟨h1, by decide, h2.2⟩

end DdsRecorder
